import Mathlib

/-!
HybrisProvider: session lifecycle and request/response bridging.

A shallow embedding of `src/hybrisprovider.cpp`.  The provider object is a record of its
member variables, every slot / D-Bus method is a function from the state before the call to
the state after it together with the list of externally visible actions (HAL calls, timer
calls, D-Bus replies, signals, warnings) performed during the call, in program order.
A call that dereferences the null `m_gps` pointer or hits `qFatal` has no result (`none`).
-/

namespace Hybris

/-! ## Values -/

/-- A C++ `double`, kept as its IEEE-754 binary64 bit pattern (sign, 11 exponent bits,
52 fraction bits).  The provider only copies doubles and tests them with `qIsNaN`. -/
structure Double where
  bits : Nat
deriving DecidableEq, Repr

/-- The `qIsNaN` test: exponent field all ones and a non-zero fraction. -/
def qIsNaN (d : Double) : Bool :=
  (d.bits / 2 ^ 52) % 2 ^ 11 == 2047 && d.bits % 2 ^ 52 != 0

/-- The quiet NaN returned by `qQNaN()`. -/
def qQNaN : Double := ⟨0x7FF8000000000000⟩

/-- Conversion of a `qint64` to `int` (`int(x)`, or the implicit conversion on assignment to an
`int &`): the value is reduced modulo 2^32 into the signed 32-bit range. -/
def toInt32 (x : Int) : Int :=
  (x + 2 ^ 31) % 2 ^ 32 - 2 ^ 31

/-- Modelled from the spec: the `Accuracy` class of the header (horizontal and vertical
accuracy in metres, NaN = absent). -/
structure Accuracy where
  horizontal : Double
  vertical : Double
deriving DecidableEq, Repr

/-- Modelled from the spec: the `Location` class of the header, the latest fix.  The timestamp
is a `qint64` count of milliseconds since the epoch; every other field is a double whose
NaN value means "absent". -/
structure Location where
  timestamp : Int
  latitude : Double
  longitude : Double
  altitude : Double
  speed : Double
  direction : Double
  climb : Double
  accuracy : Accuracy
deriving DecidableEq, Repr

/-- Modelled from the spec: the default-constructed `Location` ("created empty at service
start"): timestamp 0 and every field absent. -/
def Location.empty : Location :=
  { timestamp := 0, latitude := qQNaN, longitude := qQNaN, altitude := qQNaN,
    speed := qQNaN, direction := qQNaN, climb := qQNaN,
    accuracy := { horizontal := qQNaN, vertical := qQNaN } }

/-- The part of a `QDBusMessage` the provider looks at: the sender (`service()`), the method
name (`member()`), and a serial number standing for the opaque call handle. -/
structure QDBusMessage where
  service : String
  member : String
  serial : Nat
deriving DecidableEq, Repr

/-- The `QDBusContext` of a slot invocation: `calledFromDBus()` and `message()`. -/
structure QDBusContext where
  calledFromDBus : Bool
  message : QDBusMessage
deriving DecidableEq, Repr

/-- The values stored in a `QVariantList` of reply arguments. -/
inductive QVariant where
  | int32 (v : Int)
  | double (d : Double)
  | accuracy (a : Accuracy)
deriving DecidableEq, Repr

/-! ## Constants -/

def MaxLocationAge : Int := 1000
def QuitIdleTime : Int := 30000
def MinimumInterval : Nat := 1000
def PreferredAccuracy : Nat := 1
def PreferredInitialFixTime : Nat := 0

/-- Modelled from the spec: the `PositionFields` flags of the header, one bit per optional
field (the Geoclue values). -/
def NoPositionFields : Nat := 0
/-- Modelled from the spec: the latitude bit of `PositionFields`. -/
def LatitudePresent : Nat := 1
/-- Modelled from the spec: the longitude bit of `PositionFields`. -/
def LongitudePresent : Nat := 2
/-- Modelled from the spec: the altitude bit of `PositionFields`. -/
def AltitudePresent : Nat := 4

/-- Modelled from the spec: the `VelocityFields` flags of the header, one bit per optional
field (the Geoclue values). -/
def NoVelocityFields : Nat := 0
/-- Modelled from the spec: the speed bit of `VelocityFields`. -/
def SpeedPresent : Nat := 1
/-- Modelled from the spec: the direction bit of `VelocityFields`. -/
def DirectionPresent : Nat := 2
/-- Modelled from the spec: the climb bit of `VelocityFields`. -/
def ClimbPresent : Nat := 4

/-- Modelled from the spec: the `Status` enumeration of the header
(`enum{Unavailable, Acquiring, Available, Error}`). -/
inductive Status where
  | StatusError
  | StatusUnavailable
  | StatusAcquiring
  | StatusAvailable
deriving DecidableEq, Repr

/-! ## Provider state and visible actions -/

/-- The member variables of `HybrisProvider`.  The HAL interface pointers are kept as
"non-null" booleans; `nextTimerId` stands for Qt's timer-id allocator (ids are positive). -/
structure State where
  m_gps : Bool
  m_ulpNetwork : Bool
  m_ulpPhoneContext : Bool
  m_agps : Bool
  m_agpsril : Bool
  m_gpsni : Bool
  m_xtra : Bool
  m_watchedServices : List String
  m_pendingCalls : List QDBusMessage
  m_idleTimer : Int
  m_currentLocation : Location
  nextTimerId : Nat
deriving DecidableEq, Repr

/-- The externally visible actions of the provider, recorded in program order. -/
inductive Effect where
  | addWatchedService (service : String)
  | removeWatchedService (service : String)
  | startTimer (interval : Int) (id : Int)
  | killTimer (id : Int)
  | set_position_mode (minInterval preferredAccuracy preferredTime : Nat)
  | start
  | stop
  | PositionChanged (fields : Nat) (timestamp : Int) (latitude longitude altitude : Double)
      (accuracy : Accuracy)
  | VelocityChanged (fields : Nat) (timestamp : Int) (speed direction climb : Double)
  | send (message : QDBusMessage) (arguments : List QVariant)
  | qWarning (text : String)
  | quit
deriving DecidableEq, Repr

/-- The error codes the HAL returns to the calls made through `m_gps` during one event
(0 = success). -/
structure GpsReturns where
  set_position_mode : Int
  start : Int
  stop : Int
deriving DecidableEq, Repr

/-- The answers of the hardware abstraction layer during construction: error codes of
`hw_get_module`, of the module's `open` and of `m_gps->init`, whether `get_gps_interface`
returns a non-null pointer, which extensions `get_extension` finds, and the error codes of
the three extension `init` calls whose result the constructor inspects. -/
structure Hal where
  hw_get_module : Int
  openDevice : Int
  get_gps_interface : Bool
  init : Int
  ulpNetwork : Bool
  ulpNetworkInit : Int
  ulpPhoneContext : Bool
  ulpPhoneContextInit : Int
  agps : Bool
  gpsni : Bool
  agpsril : Bool
  xtra : Bool
  xtraInit : Int
deriving DecidableEq, Repr

/-- Demand: watched-services entries plus pending calls. -/
def demand (st : State) : Nat :=
  st.m_watchedServices.length + st.m_pendingCalls.length

/-! ## The constructor -/

/-- The warnings the constructor logs while it initialises the extensions, in source
order: one announcement per extension found, and a failure warning where the result of the
extension's `init` is inspected and is an error. -/
def extensionWarnings (hal : Hal) : List Effect :=
  (if hal.ulpNetwork then
     [Effect.qWarning "Initialising ULP Network Interface"] ++
       (if hal.ulpNetworkInit != 0 then
          [Effect.qWarning "ULP Network Interface init failed"] else [])
   else []) ++
  (if hal.ulpPhoneContext then
     [Effect.qWarning "Initialising ULP Phone Context Interface"] ++
       (if hal.ulpPhoneContextInit != 0 then
          [Effect.qWarning "ULP Phone Context Interface init failed"] else [])
   else []) ++
  (if hal.agps then [Effect.qWarning "Initialising AGPS Interface"] else []) ++
  (if hal.gpsni then [Effect.qWarning "Initialising GPS NI Interface"] else []) ++
  (if hal.agpsril then [Effect.qWarning "Initialising AGPS RIL Interface"] else []) ++
  (if hal.xtra then
     [Effect.qWarning "Initialising GPS Xtra Interface"] ++
       (if hal.xtraInit != 0 then
          [Effect.qWarning "GPS Xtra Interface init failed"] else [])
   else [])

/-- The constructor `HybrisProvider::HybrisProvider`, for the single instance
(`staticProvider` is null on entry).  Every `qWarning` of the constructor is recorded,
the informational ones included. -/
def HybrisProvider (hal : Hal) : Option (State × List Effect) :=
  let st0 : State :=
    { m_gps := false, m_ulpNetwork := false, m_ulpPhoneContext := false, m_agps := false,
      m_agpsril := false, m_gpsni := false, m_xtra := false,
      m_watchedServices := [], m_pendingCalls := [],
      m_idleTimer := 1, m_currentLocation := Location.empty, nextTimerId := 1 }
  let e0 := [Effect.startTimer QuitIdleTime 1]
  if hal.hw_get_module != 0 then
    some (st0, e0 ++ [Effect.qWarning "Android GPS interface not found"])
  else
    let e1 := e0 ++ [Effect.qWarning "Android GPS hardware module"]
    if hal.openDevice != 0 then
      some (st0, e1 ++ [Effect.qWarning "Failed to open GPS device"])
    else
      let st1 := { st0 with m_gps := hal.get_gps_interface }
      let e2 := e1 ++ [Effect.qWarning "Initialising GPS interface"]
      if !st1.m_gps then none
      else if hal.init != 0 then
        some (st1, e2 ++ [Effect.qWarning "Failed to initialise GPS interface"])
      else
        some ({ st1 with
                  m_ulpNetwork := hal.ulpNetwork, m_ulpPhoneContext := hal.ulpPhoneContext,
                  m_agps := hal.agps, m_gpsni := hal.gpsni, m_agpsril := hal.agpsril,
                  m_xtra := hal.xtra }, e2 ++ extensionWarnings hal)

/-! ## Starting and stopping the hardware -/

/-- The method `HybrisProvider::startPositioningIfNeeded`. -/
def startPositioningIfNeeded (st : State) (gps : GpsReturns) : Option (State × List Effect) :=
  if st.m_watchedServices.length + st.m_pendingCalls.length != 1 then
    some (st, [])
  else
    let st1 := if st.m_idleTimer != -1 then { st with m_idleTimer := -1 } else st
    let e1 := if st.m_idleTimer != -1 then [Effect.killTimer st.m_idleTimer] else []
    if !st1.m_gps then none
    else
      let e2 := e1 ++ [Effect.set_position_mode MinimumInterval PreferredAccuracy
                          PreferredInitialFixTime]
      if gps.set_position_mode != 0 then
        some (st1, e2 ++ [Effect.qWarning "Failed to set position mode"])
      else if gps.start != 0 then
        some (st1, e2 ++ [Effect.start, Effect.qWarning "Failed to start positioning"])
      else
        some (st1, e2 ++ [Effect.start])

/-- The method `HybrisProvider::stopPositioningIfNeeded`. -/
def stopPositioningIfNeeded (st : State) (gps : GpsReturns) : Option (State × List Effect) :=
  if !st.m_watchedServices.isEmpty || !st.m_pendingCalls.isEmpty then
    some (st, [])
  else if !st.m_gps then none
  else
    let e1 := if gps.stop != 0 then [Effect.stop, Effect.qWarning "Failed to stop positioning"]
              else [Effect.stop]
    let id : Int := st.nextTimerId + 1
    some ({ st with m_idleTimer := id, nextTimerId := st.nextTimerId + 1 },
          e1 ++ [Effect.startTimer QuitIdleTime id])

/-! ## Reference counting -/

/-- The D-Bus method `HybrisProvider::AddReference`. -/
def AddReference (st : State) (ctx : QDBusContext) (gps : GpsReturns) :
    Option (State × List Effect) :=
  if !ctx.calledFromDBus then none
  else
    let service := ctx.message.service
    let e1 := if !st.m_watchedServices.contains service then [Effect.addWatchedService service]
              else []
    let st1 := { st with m_watchedServices := st.m_watchedServices ++ [service] }
    match startPositioningIfNeeded st1 gps with
    | none => none
    | some (st2, e2) => some (st2, e1 ++ e2)

/-- The D-Bus method `HybrisProvider::RemoveReference`; `removeOne` deletes the first
occurrence. -/
def RemoveReference (st : State) (ctx : QDBusContext) (gps : GpsReturns) :
    Option (State × List Effect) :=
  if !ctx.calledFromDBus then none
  else
    let service := ctx.message.service
    let st1 := { st with m_watchedServices := st.m_watchedServices.erase service }
    let e1 := if !st1.m_watchedServices.contains service
              then [Effect.removeWatchedService service] else []
    match stopPositioningIfNeeded st1 gps with
    | none => none
    | some (st2, e2) => some (st2, e1 ++ e2)

/-- The slot `HybrisProvider::serviceUnregistered`; `removeAll` deletes every occurrence. -/
def serviceUnregistered (st : State) (service : String) (gps : GpsReturns) :
    Option (State × List Effect) :=
  let st1 := { st with m_watchedServices := st.m_watchedServices.filter (fun s => s != service) }
  let e1 := [Effect.removeWatchedService service]
  match stopPositioningIfNeeded st1 gps with
  | none => none
  | some (st2, e2) => some (st2, e1 ++ e2)

/-- The D-Bus method `HybrisProvider::GetStatus`. -/
def GetStatus (st : State) : Status :=
  if !st.m_gps && !st.m_agps && !st.m_agpsril then Status.StatusUnavailable
  else Status.StatusAcquiring

/-! ## Position and velocity queries -/

/-- The values `GetPosition` writes to its reference parameters. -/
structure PositionOut where
  timestamp : Int
  latitude : Double
  longitude : Double
  altitude : Double
  accuracy : Accuracy
deriving DecidableEq, Repr

/-- The outcome of a `GetPosition` call for its caller: whether `setDelayedReply(true)` was
called, the returned `positionFields`, and the values written to the reference parameters
(`none` when they were left untouched). -/
structure PositionReturn where
  delayedReply : Bool
  positionFields : Nat
  out : Option PositionOut
deriving DecidableEq, Repr

/-- The values `GetVelocity` writes to its reference parameters. -/
structure VelocityOut where
  timestamp : Int
  speed : Double
  direction : Double
  climb : Double
deriving DecidableEq, Repr

/-- The outcome of a `GetVelocity` call for its caller. -/
structure VelocityReturn where
  delayedReply : Bool
  velocityFields : Nat
  out : Option VelocityOut
deriving DecidableEq, Repr

/-- The D-Bus method `HybrisProvider::GetPosition`; `now` is the value of
`QDateTime::currentMSecsSinceEpoch()`, a clock reading for which the `qint64` difference
`now - MaxLocationAge` does not overflow.  The `int &timestamp` parameter receives the
`qint64` timestamp converted to `int`. -/
def GetPosition (st : State) (now : Int) (ctx : QDBusContext) (gps : GpsReturns) :
    Option (State × List Effect × PositionReturn) :=
  let positionFields := NoPositionFields
  if st.m_currentLocation.timestamp < now - MaxLocationAge then
    let st1 := { st with m_pendingCalls := st.m_pendingCalls ++ [ctx.message] }
    match startPositioningIfNeeded st1 gps with
    | none => none
    | some (st2, e2) =>
      some (st2, e2, { delayedReply := true, positionFields := positionFields, out := none })
  else
    let timestamp := toInt32 st.m_currentLocation.timestamp
    let positionFields :=
      if !qIsNaN st.m_currentLocation.latitude then positionFields ||| LatitudePresent
      else positionFields
    let latitude := st.m_currentLocation.latitude
    let positionFields :=
      if !qIsNaN st.m_currentLocation.longitude then positionFields ||| LongitudePresent
      else positionFields
    let longitude := st.m_currentLocation.longitude
    let positionFields :=
      if !qIsNaN st.m_currentLocation.altitude then positionFields ||| AltitudePresent
      else positionFields
    let altitude := st.m_currentLocation.altitude
    let accuracy := st.m_currentLocation.accuracy
    some (st, [], { delayedReply := false, positionFields := positionFields,
                    out := some { timestamp := timestamp, latitude := latitude,
                                  longitude := longitude, altitude := altitude,
                                  accuracy := accuracy } })

/-- The D-Bus method `HybrisProvider::GetVelocity`. -/
def GetVelocity (st : State) (now : Int) (ctx : QDBusContext) (gps : GpsReturns) :
    Option (State × List Effect × VelocityReturn) :=
  let velocityFields := NoVelocityFields
  if st.m_currentLocation.timestamp < now - MaxLocationAge then
    let st1 := { st with m_pendingCalls := st.m_pendingCalls ++ [ctx.message] }
    match startPositioningIfNeeded st1 gps with
    | none => none
    | some (st2, e2) =>
      some (st2, e2, { delayedReply := true, velocityFields := velocityFields, out := none })
  else
    let timestamp := toInt32 st.m_currentLocation.timestamp
    let velocityFields :=
      if !qIsNaN st.m_currentLocation.speed then velocityFields ||| SpeedPresent
      else velocityFields
    let speed := st.m_currentLocation.speed
    let velocityFields :=
      if !qIsNaN st.m_currentLocation.direction then velocityFields ||| DirectionPresent
      else velocityFields
    let direction := st.m_currentLocation.direction
    let velocityFields :=
      if !qIsNaN st.m_currentLocation.climb then velocityFields ||| ClimbPresent
      else velocityFields
    let climb := st.m_currentLocation.climb
    some (st, [], { delayedReply := false, velocityFields := velocityFields,
                    out := some { timestamp := timestamp, speed := speed,
                                  direction := direction, climb := climb } })

/-- The reply tuple of an immediately answered `GetPosition`: the return value followed by
the reference parameters in declaration order
(presence flags, timestamp, latitude, longitude, altitude, accuracy). -/
def PositionReturn.arguments (r : PositionReturn) : Option (List QVariant) :=
  match r.delayedReply, r.out with
  | false, some o =>
    some [QVariant.int32 r.positionFields, QVariant.int32 o.timestamp,
          QVariant.double o.latitude, QVariant.double o.longitude,
          QVariant.double o.altitude, QVariant.accuracy o.accuracy]
  | _, _ => none

/-- The reply tuple of an immediately answered `GetVelocity`: the return value followed by
the reference parameters in declaration order
(presence flags, timestamp, speed, direction, climb). -/
def VelocityReturn.arguments (r : VelocityReturn) : Option (List QVariant) :=
  match r.delayedReply, r.out with
  | false, some o =>
    some [QVariant.int32 r.velocityFields, QVariant.int32 o.timestamp,
          QVariant.double o.speed, QVariant.double o.direction, QVariant.double o.climb]
  | _, _ => none

/-! ## Fixes and the idle timer -/

/-- The local `positionArguments` list that `emitLocationChanged` builds from the
current location. -/
def positionArguments (loc : Location) : List QVariant :=
  let positionFields := NoPositionFields
  let positionFields :=
    if !qIsNaN loc.latitude then positionFields ||| LatitudePresent else positionFields
  let positionFields :=
    if !qIsNaN loc.longitude then positionFields ||| LongitudePresent else positionFields
  let positionFields :=
    if !qIsNaN loc.altitude then positionFields ||| AltitudePresent else positionFields
  [QVariant.int32 positionFields, QVariant.int32 (toInt32 loc.timestamp),
   QVariant.double loc.latitude, QVariant.double loc.longitude,
   QVariant.double loc.altitude, QVariant.accuracy loc.accuracy]

/-- The local `velocityArguments` list that `emitLocationChanged` builds from the
current location. -/
def velocityArguments (loc : Location) : List QVariant :=
  let velocityFields := NoVelocityFields
  let velocityFields :=
    if !qIsNaN loc.speed then velocityFields ||| SpeedPresent else velocityFields
  let velocityFields :=
    if !qIsNaN loc.direction then velocityFields ||| DirectionPresent else velocityFields
  let velocityFields :=
    if !qIsNaN loc.climb then velocityFields ||| ClimbPresent else velocityFields
  [QVariant.int32 velocityFields, QVariant.double loc.speed,
   QVariant.double loc.direction, QVariant.double loc.climb]

/-- The body of the `foreach` loop of `emitLocationChanged` for one pending call. -/
def replyPendingCall (loc : Location) (message : QDBusMessage) : Effect :=
  if message.member == "GetPosition" then
    Effect.send message (positionArguments loc)
  else if message.member == "GetVelocity" then
    Effect.send message (velocityArguments loc)
  else
    Effect.qWarning "Unknown method for pending call"

/-- The method `HybrisProvider::emitLocationChanged`.  The two signals carry the 64-bit
timestamp as passed by the caller (the signal declarations are in the header). -/
def emitLocationChanged (st : State) : State × List Effect :=
  let loc := st.m_currentLocation
  let positionFields := NoPositionFields
  let positionFields :=
    if !qIsNaN loc.latitude then positionFields ||| LatitudePresent else positionFields
  let positionFields :=
    if !qIsNaN loc.longitude then positionFields ||| LongitudePresent else positionFields
  let positionFields :=
    if !qIsNaN loc.altitude then positionFields ||| AltitudePresent else positionFields
  let velocityFields := NoVelocityFields
  let velocityFields :=
    if !qIsNaN loc.speed then velocityFields ||| SpeedPresent else velocityFields
  let velocityFields :=
    if !qIsNaN loc.direction then velocityFields ||| DirectionPresent else velocityFields
  let velocityFields :=
    if !qIsNaN loc.climb then velocityFields ||| ClimbPresent else velocityFields
  let signals :=
    [Effect.PositionChanged positionFields loc.timestamp loc.latitude loc.longitude
       loc.altitude loc.accuracy,
     Effect.VelocityChanged velocityFields loc.timestamp loc.speed loc.direction loc.climb]
  if !st.m_pendingCalls.isEmpty then
    ({ st with m_pendingCalls := [] },
     signals ++ st.m_pendingCalls.map (replyPendingCall loc))
  else
    (st, signals)

/-- The slot `HybrisProvider::setLocation`. -/
def setLocation (st : State) (location : Location) : State × List Effect :=
  emitLocationChanged { st with m_currentLocation := location }

/-- The method `HybrisProvider::timerEvent` (the base-class handler does nothing visible). -/
def timerEvent (st : State) (timerId : Int) : State × List Effect :=
  if timerId == st.m_idleTimer then
    ({ st with m_idleTimer := -1 }, [Effect.killTimer st.m_idleTimer, Effect.quit])
  else
    (st, [])

/-! ## Events and runs -/

/-- The events the provider reacts to.  The four D-Bus methods carry the caller identity
(and, for the queries, the clock reading and the serial of the call); D-Bus dispatch fixes
the `member()` of the message to the name of the invoked method. -/
inductive Event where
  | AddReference (service : String)
  | RemoveReference (service : String)
  | serviceUnregistered (service : String)
  | GetPosition (now : Int) (service : String) (serial : Nat)
  | GetVelocity (now : Int) (service : String) (serial : Nat)
  | setLocation (location : Location)
  | timerEvent (timerId : Int)
deriving DecidableEq, Repr

/-- The context of a method invoked over D-Bus. -/
def dbusCall (service member : String) (serial : Nat) : QDBusContext :=
  { calledFromDBus := true,
    message := { service := service, member := member, serial := serial } }

/-- One event: the state after it and the actions performed during it. -/
def step (gps : GpsReturns) (st : State) : Event → Option (State × List Effect)
  | Event.AddReference service => AddReference st (dbusCall service "AddReference" 0) gps
  | Event.RemoveReference service =>
    RemoveReference st (dbusCall service "RemoveReference" 0) gps
  | Event.serviceUnregistered service => serviceUnregistered st service gps
  | Event.GetPosition now service serial =>
    match GetPosition st now (dbusCall service "GetPosition" serial) gps with
    | none => none
    | some (st1, e1, _) => some (st1, e1)
  | Event.GetVelocity now service serial =>
    match GetVelocity st now (dbusCall service "GetVelocity" serial) gps with
    | none => none
    | some (st1, e1, _) => some (st1, e1)
  | Event.setLocation location => some (setLocation st location)
  | Event.timerEvent timerId => some (timerEvent st timerId)

/-- A sequence of events, each with the HAL answers valid during it; the actions of the
whole run in order. -/
def run (st : State) : List (GpsReturns × Event) → Option (State × List Effect)
  | [] => some (st, [])
  | (gps, e) :: rest =>
    match step gps st e with
    | none => none
    | some (st1, e1) =>
      match run st1 rest with
      | none => none
      | some (st2, e2) => some (st2, e1 ++ e2)

/-- States reachable from construction through any sequence of events. -/
inductive Reachable : State → Prop where
  | init (hal : Hal) (st : State) (effs : List Effect) :
      HybrisProvider hal = some (st, effs) → Reachable st
  | step (gps : GpsReturns) (e : Event) (st st1 : State) (effs : List Effect) :
      Reachable st → step gps st e = some (st1, effs) → Reachable st1

/-! ## Observations on action lists -/

/-- Number of `stop()` calls in a list of actions. -/
def stopCalls (effs : List Effect) : Nat :=
  effs.count Effect.stop

/-- Number of `start()` calls in a list of actions. -/
def startCalls (effs : List Effect) : Nat :=
  effs.count Effect.start

/-- The calls made through `m_gps`, in order. -/
def gpsCalls (effs : List Effect) : List Effect :=
  effs.filter (fun e =>
    match e with
    | Effect.set_position_mode _ _ _ => true
    | Effect.start => true
    | Effect.stop => true
    | _ => false)

/-- The D-Bus replies sent, in order. -/
def sentReplies (effs : List Effect) : List (QDBusMessage × List QVariant) :=
  effs.filterMap (fun e =>
    match e with
    | Effect.send message arguments => some (message, arguments)
    | _ => none)

/-- Checks that `start()` and `stop()` strictly alternate: from `running`, a `start()` is
accepted only when stopped and a `stop()` only when started; the result is the final
running flag, `none` when some call is out of turn. -/
def startStopAlternate : Bool → List Effect → Option Bool
  | running, [] => some running
  | running, Effect.start :: rest =>
    if running then none else startStopAlternate true rest
  | running, Effect.stop :: rest =>
    if running then startStopAlternate false rest else none
  | running, _ :: rest => startStopAlternate running rest

/-- Checks that no `start()` is issued while an earlier `start()` has not yet been followed
by a `stop()` (a `stop()` is accepted at any time); the result tells whether the last
`start()` is still waiting for its `stop()`, `none` when a `start()` comes out of turn. -/
def startsAnswered : Bool → List Effect → Option Bool
  | running, [] => some running
  | running, Effect.start :: rest =>
    if running then none else startsAnswered true rest
  | _, Effect.stop :: rest => startsAnswered false rest
  | running, _ :: rest => startsAnswered running rest

/-- Number of `AddReference` calls by `service` in a sequence. -/
def addCount (service : String) (evs : List (GpsReturns × Event)) : Nat :=
  evs.countP (fun x => x.2 == Event.AddReference service)

/-- Number of `RemoveReference` calls by `service` in a sequence. -/
def removeCount (service : String) (evs : List (GpsReturns × Event)) : Nat :=
  evs.countP (fun x => x.2 == Event.RemoveReference service)

/-- The event is an `AddReference` or a `RemoveReference` call. -/
def Event.isReference : Event → Bool
  | Event.AddReference _ => true
  | Event.RemoveReference _ => true
  | _ => false

/-- The event is a `RemoveReference` call or a `serviceUnregistered` report. -/
def Event.isRemoval : Event → Bool
  | Event.RemoveReference _ => true
  | Event.serviceUnregistered _ => true
  | _ => false

/-- The event is an `AddReference`, `GetPosition` or `GetVelocity` call. -/
def Event.isRequest : Event → Bool
  | Event.AddReference _ => true
  | Event.GetPosition _ _ _ => true
  | Event.GetVelocity _ _ _ => true
  | _ => false

/-- A HAL that opens and initialises, with no extensions. -/
def halOk : Hal :=
  { hw_get_module := 0, openDevice := 0, get_gps_interface := true, init := 0,
    ulpNetwork := false, ulpNetworkInit := 0, ulpPhoneContext := false,
    ulpPhoneContextInit := 0, agps := false, gpsni := false, agpsril := false,
    xtra := false, xtraInit := 0 }

/-- HAL calls that all succeed. -/
def gpsOk : GpsReturns := { set_position_mode := 0, start := 0, stop := 0 }

/-- The provider after a successful construction. -/
def initialState : State :=
  { m_gps := true, m_ulpNetwork := false, m_ulpPhoneContext := false, m_agps := false,
    m_agpsril := false, m_gpsni := false, m_xtra := false,
    m_watchedServices := [], m_pendingCalls := [],
    m_idleTimer := 1, m_currentLocation := Location.empty, nextTimerId := 1 }

/-- A HAL whose base interface is obtained but whose `init` reports an error. -/
def halInitFails : Hal := { halOk with init := -1 }

/-- A fix with only latitude 1.0 and longitude 2.0 set, stamped `t`. -/
def latLonFix (t : Int) : Location :=
  { Location.empty with
      timestamp := t, latitude := ⟨0x3FF0000000000000⟩, longitude := ⟨0x4000000000000000⟩ }

/-- A HAL without a GPS module: `hw_get_module` reports an error. -/
def halNoModule : Hal := { halOk with hw_get_module := -1 }

/-- The provider after construction and one `AddReference` by client A. -/
def watchingA : State :=
  { initialState with m_watchedServices := ["A"], m_idleTimer := -1 }

/-- HAL calls in which `set_position_mode` reports an error. -/
def gpsModeFails : GpsReturns := { set_position_mode := -1, start := 0, stop := 0 }

/-! ## Predicates used in the statements -/

/-- How the `start()` / `stop()` calls of one event relate to the demand before and after
it and to the kind of the event. -/
def CallFacts (gps : GpsReturns) (st : State) (e : Event) (st1 : State)
    (effs : List Effect) : Prop :=
  (e.isRemoval = true → demand st1 ≠ 0 → stopCalls effs = 0) ∧
  (e.isRemoval = true → demand st1 = 0 → stopCalls effs = 1) ∧
  (e.isRemoval = false → stopCalls effs = 0) ∧
  (e.isRequest = true → demand st ≤ demand st1) ∧
  (e.isRequest = false → startCalls effs = 0) ∧
  (¬ (demand st = 0 ∧ demand st1 = 1) → startCalls effs = 0) ∧
  (demand st = 0 → demand st1 = 1 → gps.set_position_mode = 0 →
    startCalls effs = 1 ∧
    gpsCalls effs = [Effect.set_position_mode MinimumInterval PreferredAccuracy
                       PreferredInitialFixTime, Effect.start]) ∧
  startCalls effs ≤ 1

/-- Every pending call is a `GetPosition` or a `GetVelocity` call. -/
def KnownMembers (q : List QDBusMessage) : Prop :=
  ∀ m ∈ q, m.member = "GetPosition" ∨ m.member = "GetVelocity"

/-- The watched-services list after a reference event. -/
def watchedAfter (w : List String) : Event → List String
  | Event.AddReference service => w ++ [service]
  | Event.RemoveReference service => w.erase service
  | _ => w

/-! ## Evaluations at concrete inputs -/

/-- C1, counterexample: on the freshly constructed provider a `RemoveReference` keeps demand
at 0 (no transition from a positive value), yet `stop()` is called once. -/
theorem C1_counterexample :
    ∃ st0 e0 st1 effs,
      HybrisProvider halOk = some (st0, e0) ∧
      step gpsOk st0 (Event.RemoveReference "A") = some (st1, effs) ∧
      demand st0 = 0 ∧ demand st1 = 0 ∧ ¬ (0 < demand st0 ∧ demand st1 = 0) ∧
      stopCalls effs = 1 := by
  refine ⟨_, _, _, _, rfl, rfl, ?_, ?_, ?_, ?_⟩ <;> decide

/-- C3, evaluation: after construction and a first fix stamped 0, a `GetPosition` at clock
5000 finds the sample stale and is queued (demand 1, idle timer killed, `start()` called);
the next fix answers it, leaving demand 0 with the idle timer not armed
(`m_idleTimer = -1`) and without any `stop()` call. -/
theorem C3_idle_timer_not_armed_after_drain :
    ∃ st0 e0 st1 effs,
      HybrisProvider halOk = some (st0, e0) ∧
      run st0 [(gpsOk, Event.setLocation (latLonFix 0)),
               (gpsOk, Event.GetPosition 5000 "A" 1),
               (gpsOk, Event.setLocation (latLonFix 5000))] = some (st1, effs) ∧
      demand st1 = 0 ∧ st1.m_idleTimer = -1 ∧ stopCalls effs = 0 ∧ startCalls effs = 1 ∧
      sentReplies effs = [(⟨"A", "GetPosition", 1⟩, positionArguments (latLonFix 5000))] := by
  refine ⟨_, _, _, _, rfl, rfl, ?_, ?_, ?_, ?_, ?_⟩ <;> decide

/-- C6, evaluation: a `GetVelocity` queued on a stale sample is answered by the next fix with
four components (no timestamp), while the same call answered immediately on that fix
yields five. -/
theorem C6_deferred_velocity_reply_lacks_timestamp :
    ∃ st0 e0 st1 e1 st2 e2 st3 e3 r,
      HybrisProvider halOk = some (st0, e0) ∧
      run st0 [(gpsOk, Event.setLocation (latLonFix 0)),
               (gpsOk, Event.GetVelocity 5000 "A" 1)] = some (st1, e1) ∧
      step gpsOk st1 (Event.setLocation (latLonFix 5000)) = some (st2, e2) ∧
      sentReplies e2 =
        [(⟨"A", "GetVelocity", 1⟩,
          [QVariant.int32 0, QVariant.double qQNaN, QVariant.double qQNaN,
           QVariant.double qQNaN])] ∧
      GetVelocity st2 5000 (dbusCall "A" "GetVelocity" 2) gpsOk = some (st3, e3, r) ∧
      r.arguments =
        some [QVariant.int32 0, QVariant.int32 5000, QVariant.double qQNaN,
              QVariant.double qQNaN, QVariant.double qQNaN] := by
  refine ⟨_, _, _, _, _, _, _, _, _, rfl, rfl, rfl, ?_, rfl, ?_⟩ <;> decide

/-- C7, counterexample: `RemoveReference` by A followed by `AddReference` by A (one call of
each kind) leaves A in the watched-services list, demand 1, and the hardware started after
the only `stop()`; and `AddReference` by A with a failing `set_position_mode` followed by
`RemoveReference` by A yields one `stop()` and no `start()`. -/
theorem C7_counterexample :
    (addCount "A" [(gpsOk, Event.RemoveReference "A"), (gpsOk, Event.AddReference "A")] =
      removeCount "A" [(gpsOk, Event.RemoveReference "A"), (gpsOk, Event.AddReference "A")] ∧
    ∃ st1 effs,
      run initialState [(gpsOk, Event.RemoveReference "A"), (gpsOk, Event.AddReference "A")]
        = some (st1, effs) ∧
      st1.m_watchedServices = ["A"] ∧ demand st1 = 1 ∧
      gpsCalls effs = [Effect.stop, Effect.set_position_mode 1000 1 0, Effect.start]) ∧
    (∃ st1 effs,
      run initialState
        [(gpsModeFails, Event.AddReference "A"), (gpsOk, Event.RemoveReference "A")]
        = some (st1, effs) ∧
      gpsCalls effs = [Effect.set_position_mode 1000 1 0, Effect.stop] ∧
      startCalls effs = 0 ∧ stopCalls effs = 1) := by
  refine ⟨⟨by decide, _, _, rfl, ?_, ?_, ?_⟩, _, _, rfl, ?_, ?_, ?_⟩ <;> decide

/-- C8, counterexample: with identity A registered twice, `serviceUnregistered` empties the
watched-services list while `RemoveReference` leaves one entry. -/
theorem C8_counterexample :
    ∃ st0 e0 st1 e1 st2 e2,
      run initialState [(gpsOk, Event.AddReference "A"), (gpsOk, Event.AddReference "A")]
        = some (st0, e0) ∧
      serviceUnregistered st0 "A" gpsOk = some (st1, e1) ∧
      RemoveReference st0 (dbusCall "A" "RemoveReference" 0) gpsOk = some (st2, e2) ∧
      st1.m_watchedServices = [] ∧ st2.m_watchedServices = ["A"] ∧
      demand st1 = 0 ∧ demand st2 = 1 := by
  refine ⟨_, _, _, _, _, _, rfl, rfl, rfl, ?_, ?_, ?_, ?_⟩ <;> decide

/-- C9, evaluation: when `hw_get_module` and `open` succeed and the interface's `init`
returns an error, `m_gps` stays set and `GetStatus` returns `StatusAcquiring`. -/
theorem C9_status_acquiring_after_failed_init :
    ∃ st effs, HybrisProvider halInitFails = some (st, effs) ∧
      Effect.qWarning "Failed to initialise GPS interface" ∈ effs ∧
      GetStatus st = Status.StatusAcquiring := by
  refine ⟨_, _, rfl, ?_, ?_⟩ <;> decide

/-- C10, evaluation: after construction, a fix stamped 1700000000000 ms (a clock reading
of late 2023) is stored unchanged; `GetPosition` at that same clock reading finds it fresh
and answers immediately, but the `int` timestamp it returns is -807049216, not the
sample's; the deferred `GetPosition` reply built from the same sample carries the same
narrowed value. -/
theorem C10_fresh_timestamp_narrowed :
    ∃ st0 e0 st1 e1 st2 e2 r o,
      HybrisProvider halOk = some (st0, e0) ∧
      step gpsOk st0 (Event.setLocation (latLonFix 1700000000000)) = some (st1, e1) ∧
      st1.m_currentLocation.timestamp = 1700000000000 ∧
      GetPosition st1 1700000000000 (dbusCall "A" "GetPosition" 1) gpsOk
        = some (st2, e2, r) ∧
      r.delayedReply = false ∧ r.out = some o ∧
      o.timestamp = -807049216 ∧ o.timestamp ≠ st1.m_currentLocation.timestamp ∧
      o.latitude = ⟨0x3FF0000000000000⟩ ∧ o.longitude = ⟨0x4000000000000000⟩ ∧
      replyPendingCall st1.m_currentLocation ⟨"A", "GetPosition", 1⟩ =
        Effect.send ⟨"A", "GetPosition", 1⟩
          [QVariant.int32 3, QVariant.int32 (-807049216),
           QVariant.double ⟨0x3FF0000000000000⟩, QVariant.double ⟨0x4000000000000000⟩,
           QVariant.double qQNaN, QVariant.accuracy ⟨qQNaN, qQNaN⟩] := by
  refine ⟨_, _, _, _, _, _, _, _, rfl, rfl, ?_, rfl, ?_, rfl, ?_, ?_, ?_, ?_, ?_⟩ <;> decide

/-- C4, evaluation: when `hw_get_module` fails the constructor returns with `m_gps` null and
the provider stays in service (`GetStatus` is `StatusUnavailable`); no fix has arrived, so a
`GetPosition` or `GetVelocity` call finds the sample stale, and after queuing the message
`startPositioningIfNeeded` calls `set_position_mode` through the null `m_gps`: the call has
no outcome, neither queued for a later reply nor answered. -/
theorem C4_stale_query_without_gps_module :
    ∃ st0 e0,
      HybrisProvider halNoModule = some (st0, e0) ∧ Reachable st0 ∧
      st0.m_gps = false ∧ GetStatus st0 = Status.StatusUnavailable ∧
      st0.m_pendingCalls = [] ∧ st0.m_watchedServices = [] ∧
      st0.m_currentLocation.timestamp < 5000 - MaxLocationAge ∧
      GetPosition st0 5000 (dbusCall "A" "GetPosition" 1) gpsOk = none ∧
      GetVelocity st0 5000 (dbusCall "A" "GetVelocity" 1) gpsOk = none ∧
      step gpsOk st0 (Event.GetPosition 5000 "A" 1) = none ∧
      step gpsOk st0 (Event.GetVelocity 5000 "A" 1) = none := by
  refine ⟨_, _, rfl, Reachable.init halNoModule _ _ rfl, ?_, ?_, ?_, ?_, ?_, ?_, ?_, ?_, ?_⟩ <;>
    decide

/-! ## Starting and stopping: what one call does -/

theorem exists_result {α β : Type} {o : Option (α × β)} {P : α → β → Prop}
    (hsome : o.isSome = true) (hall : ∀ a b, o = some (a, b) → P a b) :
    ∃ a b, o = some (a, b) ∧ P a b := by
  cases o with
  | none => simp at hsome
  | some r => exact ⟨r.1, r.2, rfl, hall r.1 r.2 rfl⟩

theorem startPositioningIfNeeded_idle (st : State) (gps : GpsReturns) (h : demand st ≠ 1) :
    startPositioningIfNeeded st gps = some (st, []) := by
  unfold demand at h
  simp [startPositioningIfNeeded, h]

theorem startPositioningIfNeeded_first (st : State) (gps : GpsReturns)
    (hgps : st.m_gps = true) (h : demand st = 1) :
    ∃ st1 effs, startPositioningIfNeeded st gps = some (st1, effs) ∧
      st1.m_gps = true ∧ st1.m_watchedServices = st.m_watchedServices ∧
      st1.m_pendingCalls = st.m_pendingCalls ∧
      st1.m_currentLocation = st.m_currentLocation ∧ st1.m_idleTimer = -1 ∧
      stopCalls effs = 0 ∧ sentReplies effs = [] ∧ startCalls effs ≤ 1 ∧
      (gps.set_position_mode = 0 →
        startCalls effs = 1 ∧
        gpsCalls effs = [Effect.set_position_mode MinimumInterval PreferredAccuracy
                           PreferredInitialFixTime, Effect.start]) := by
  unfold demand at h
  apply exists_result
  · unfold startPositioningIfNeeded
    by_cases ht : st.m_idleTimer = -1 <;> by_cases hm : gps.set_position_mode = 0 <;>
      by_cases hs : gps.start = 0 <;> simp [h, ht, hm, hs, hgps]
  · intro st1 effs heq
    unfold startPositioningIfNeeded at heq
    by_cases ht : st.m_idleTimer = -1 <;> by_cases hm : gps.set_position_mode = 0 <;>
      by_cases hs : gps.start = 0 <;>
      simp [h, ht, hm, hs, hgps] at heq <;>
      obtain ⟨rfl, rfl⟩ := heq <;>
      simp [hm, ht, hgps, stopCalls, startCalls, sentReplies, gpsCalls]

theorem stopPositioningIfNeeded_busy (st : State) (gps : GpsReturns) (h : demand st ≠ 0) :
    stopPositioningIfNeeded st gps = some (st, []) := by
  unfold demand at h
  unfold stopPositioningIfNeeded
  cases hw : st.m_watchedServices <;> cases hp : st.m_pendingCalls <;> simp_all

theorem stopPositioningIfNeeded_last (st : State) (gps : GpsReturns)
    (hgps : st.m_gps = true) (h : demand st = 0) :
    ∃ st1 effs, stopPositioningIfNeeded st gps = some (st1, effs) ∧
      st1.m_gps = true ∧ st1.m_watchedServices = st.m_watchedServices ∧
      st1.m_pendingCalls = st.m_pendingCalls ∧
      st1.m_currentLocation = st.m_currentLocation ∧ st1.m_idleTimer ≠ -1 ∧
      stopCalls effs = 1 ∧ startCalls effs = 0 ∧ sentReplies effs = [] ∧
      gpsCalls effs = [Effect.stop] := by
  unfold demand at h
  have hw : st.m_watchedServices = [] := by
    cases hw : st.m_watchedServices <;> simp_all
  have hp : st.m_pendingCalls = [] := by
    cases hp : st.m_pendingCalls <;> simp_all
  apply exists_result
  · unfold stopPositioningIfNeeded
    simp [hw, hp, hgps]
  · intro st1 effs heq
    unfold stopPositioningIfNeeded at heq
    by_cases hs : gps.stop = 0 <;>
      simp [hw, hp, hs, hgps] at heq <;>
      obtain ⟨rfl, rfl⟩ := heq <;>
      simp [hw, hp, hgps, stopCalls, startCalls, sentReplies, gpsCalls] <;> omega

theorem startPositioningIfNeeded_spec (st : State) (gps : GpsReturns)
    (hgps : st.m_gps = true) :
    ∃ st1 effs, startPositioningIfNeeded st gps = some (st1, effs) ∧
      st1.m_gps = true ∧ st1.m_watchedServices = st.m_watchedServices ∧
      st1.m_pendingCalls = st.m_pendingCalls ∧
      st1.m_currentLocation = st.m_currentLocation ∧
      stopCalls effs = 0 ∧ sentReplies effs = [] ∧ startCalls effs ≤ 1 ∧
      (demand st ≠ 1 → st1 = st ∧ effs = []) ∧
      (demand st = 1 → st1.m_idleTimer = -1 ∧
        (gps.set_position_mode = 0 →
          startCalls effs = 1 ∧
          gpsCalls effs = [Effect.set_position_mode MinimumInterval PreferredAccuracy
                             PreferredInitialFixTime, Effect.start])) := by
  by_cases h : demand st = 1
  · obtain ⟨st1, effs, heq, h1, h2, h3, h4, h5, h6, h7, h8, h9⟩ :=
      startPositioningIfNeeded_first st gps hgps h
    exact ⟨st1, effs, heq, h1, h2, h3, h4, h6, h7, h8, fun hne => absurd h hne,
      fun _ => ⟨h5, h9⟩⟩
  · refine ⟨st, [], startPositioningIfNeeded_idle st gps h, hgps, rfl, rfl, rfl, ?_, ?_, ?_,
      fun _ => ⟨rfl, rfl⟩, fun h1 => absurd h1 h⟩ <;> simp [stopCalls, sentReplies, startCalls]

theorem stopPositioningIfNeeded_spec (st : State) (gps : GpsReturns)
    (hgps : st.m_gps = true) :
    ∃ st1 effs, stopPositioningIfNeeded st gps = some (st1, effs) ∧
      st1.m_gps = true ∧ st1.m_watchedServices = st.m_watchedServices ∧
      st1.m_pendingCalls = st.m_pendingCalls ∧
      st1.m_currentLocation = st.m_currentLocation ∧
      startCalls effs = 0 ∧ sentReplies effs = [] ∧
      (demand st ≠ 0 → st1 = st ∧ effs = []) ∧
      (demand st = 0 → st1.m_idleTimer ≠ -1 ∧ stopCalls effs = 1 ∧
        gpsCalls effs = [Effect.stop]) := by
  by_cases h : demand st = 0
  · obtain ⟨st1, effs, heq, h1, h2, h3, h4, h5, h6, h7, h8, h9⟩ :=
      stopPositioningIfNeeded_last st gps hgps h
    exact ⟨st1, effs, heq, h1, h2, h3, h4, h7, h8, fun hne => absurd h hne,
      fun _ => ⟨h5, h6, h9⟩⟩
  · refine ⟨st, [], stopPositioningIfNeeded_busy st gps h, hgps, rfl, rfl, rfl, ?_, ?_,
      fun _ => ⟨rfl, rfl⟩, fun h1 => absurd h1 h⟩ <;> simp [sentReplies, startCalls]

/-! ## What one event does to the hardware -/

theorem startCalls_append (a b : List Effect) :
    startCalls (a ++ b) = startCalls a + startCalls b := by
  simp [startCalls]

theorem stopCalls_append (a b : List Effect) :
    stopCalls (a ++ b) = stopCalls a + stopCalls b := by
  simp [stopCalls]

theorem gpsCalls_append (a b : List Effect) :
    gpsCalls (a ++ b) = gpsCalls a ++ gpsCalls b := by
  simp [gpsCalls]

theorem sentReplies_append (a b : List Effect) :
    sentReplies (a ++ b) = sentReplies a ++ sentReplies b := by
  simp [sentReplies]

/-- The actions on the service watcher involve neither the hardware nor replies. -/
theorem watcher_quiet (c : Bool) (x : Effect)
    (hx : (∃ s, x = Effect.addWatchedService s) ∨ (∃ s, x = Effect.removeWatchedService s)) :
    startCalls (if c = true then [x] else []) = 0 ∧
    stopCalls (if c = true then [x] else []) = 0 ∧
    gpsCalls (if c = true then [x] else []) = [] ∧
    sentReplies (if c = true then [x] else []) = [] := by
  rcases hx with ⟨s, rfl⟩ | ⟨s, rfl⟩ <;> cases c <;>
    simp [startCalls, stopCalls, gpsCalls, sentReplies]

theorem replyPendingCall_calls (loc : Location) (q : List QDBusMessage) :
    startCalls (q.map (replyPendingCall loc)) = 0 ∧
    stopCalls (q.map (replyPendingCall loc)) = 0 ∧
    gpsCalls (q.map (replyPendingCall loc)) = [] := by
  induction q with
  | nil => simp [startCalls, stopCalls, gpsCalls]
  | cons m q ih =>
    obtain ⟨i1, i2, i3⟩ := ih
    simp only [startCalls, stopCalls, gpsCalls] at i1 i2 i3 ⊢
    simp only [List.map_cons, replyPendingCall]
    split_ifs <;> simp [i1, i2, i3]

/-- The actions of a fix: the two change signals, then one action per pending call. -/
theorem setLocation_effects (st : State) (location : Location) :
    ∃ sp sv, (setLocation st location).2 =
      [sp, sv] ++ st.m_pendingCalls.map (replyPendingCall location) ∧
      (∃ f t a b c d, sp = Effect.PositionChanged f t a b c d) ∧
      (∃ f t a b c, sv = Effect.VelocityChanged f t a b c) := by
  unfold setLocation emitLocationChanged
  cases hp : st.m_pendingCalls with
  | nil => exact ⟨_, _, rfl, ⟨_, _, _, _, _, _, rfl⟩, ⟨_, _, _, _, _, rfl⟩⟩
  | cons m q => exact ⟨_, _, rfl, ⟨_, _, _, _, _, _, rfl⟩, ⟨_, _, _, _, _, rfl⟩⟩

/-- A fix makes no call through `m_gps`, keeps the watched services and the idle timer, and
empties the pending-call list. -/
theorem setLocation_calls (st : State) (location : Location) :
    (setLocation st location).1.m_gps = st.m_gps ∧
    (setLocation st location).1.m_watchedServices = st.m_watchedServices ∧
    (setLocation st location).1.m_pendingCalls = [] ∧
    (setLocation st location).1.m_idleTimer = st.m_idleTimer ∧
    startCalls (setLocation st location).2 = 0 ∧
    stopCalls (setLocation st location).2 = 0 ∧
    gpsCalls (setLocation st location).2 = [] := by
  obtain ⟨i1, i2, i3⟩ := replyPendingCall_calls location st.m_pendingCalls
  obtain ⟨sp, sv, he, ⟨f, t, a, b, c, d, rfl⟩, ⟨f1, t1, a1, b1, c1, rfl⟩⟩ :=
    setLocation_effects st location
  rw [he, startCalls_append, stopCalls_append, gpsCalls_append, i1, i2, i3]
  refine ⟨?_, ?_, ?_, ?_, ?_, ?_, ?_⟩
  · unfold setLocation emitLocationChanged
    cases hp : st.m_pendingCalls <;> rfl
  · unfold setLocation emitLocationChanged
    cases hp : st.m_pendingCalls <;> rfl
  · unfold setLocation emitLocationChanged
    cases hp : st.m_pendingCalls <;> simp [hp]
  · unfold setLocation emitLocationChanged
    cases hp : st.m_pendingCalls <;> rfl
  · simp [startCalls]
  · simp [stopCalls]
  · simp [gpsCalls]

/-- An event that is no removal, keeps the demand and calls neither `start()` nor `stop()`. -/
theorem callFacts_quiet (gps : GpsReturns) (st : State) (e : Event) (st1 : State)
    (effs : List Effect) (hr : e.isRemoval = false) (hd : demand st1 = demand st)
    (h1 : startCalls effs = 0) (h2 : stopCalls effs = 0) : CallFacts gps st e st1 effs := by
  refine ⟨fun _ _ => h2, ?_, fun _ => h2, ?_, fun _ => h1, fun _ => h1, ?_, by omega⟩
  · simp [hr]
  · intro _; omega
  · intro hz h1; omega

/-- An event that enqueues one entry and then runs `startPositioningIfNeeded`. -/
theorem callFacts_enqueue (gps : GpsReturns) (st : State) (e : Event) (st0 st1 : State)
    (pre effs : List Effect) (hq : e.isRequest = true)
    (hgps : st0.m_gps = true) (hd : demand st0 = demand st + 1)
    (hpre : startCalls pre = 0 ∧ stopCalls pre = 0 ∧ gpsCalls pre = [] ∧ sentReplies pre = [])
    (heq : startPositioningIfNeeded st0 gps = some (st1, effs)) :
    st1.m_gps = true ∧ CallFacts gps st e st1 (pre ++ effs) := by
  obtain ⟨st2, effs2, heq2, h1, h2, h3, h4, h5, h6, h7, h8, h9⟩ :=
    startPositioningIfNeeded_spec st0 gps hgps
  rw [heq] at heq2
  simp only [Option.some.injEq, Prod.mk.injEq] at heq2
  obtain ⟨rfl, rfl⟩ := heq2
  have hd1 : demand st1 = demand st + 1 := by
    rw [← hd]; simp [demand, h2, h3]
  rw [hd] at h8 h9
  obtain ⟨q1, q2, q3, q4⟩ := hpre
  refine ⟨h1, ?_⟩
  unfold CallFacts
  simp only [startCalls_append, stopCalls_append, gpsCalls_append, q1, q2, q3, hd1, h5]
  refine ⟨?_, ?_, ?_, ?_, ?_, ?_, ?_, ?_⟩
  · simp
  · simp
  · simp
  · simp
  · simp [hq]
  · intro hn
    have : demand st + 1 ≠ 1 := by omega
    simp [(h8 this).2, startCalls]
  · intro hz _ hm
    have := (h9 (by omega)).2 hm
    simpa using this
  · omega

/-- An event that removes entries and then runs `stopPositioningIfNeeded`. -/
theorem callFacts_removal (gps : GpsReturns) (st : State) (e : Event) (st0 st1 : State)
    (pre effs : List Effect) (hr : e.isRemoval = true) (hq : e.isRequest = false)
    (hgps : st0.m_gps = true) (hd : demand st0 ≤ demand st)
    (hpre : startCalls pre = 0 ∧ stopCalls pre = 0 ∧ gpsCalls pre = [] ∧ sentReplies pre = [])
    (heq : stopPositioningIfNeeded st0 gps = some (st1, effs)) :
    st1.m_gps = true ∧ CallFacts gps st e st1 (pre ++ effs) := by
  obtain ⟨st2, effs2, heq2, h1, h2, h3, h4, h5, h6, h7, h8⟩ :=
    stopPositioningIfNeeded_spec st0 gps hgps
  rw [heq] at heq2
  simp only [Option.some.injEq, Prod.mk.injEq] at heq2
  obtain ⟨rfl, rfl⟩ := heq2
  have hd1 : demand st1 = demand st0 := by
    simp [demand, h2, h3]
  rw [← hd1] at h7 h8 hd
  obtain ⟨q1, q2, q3, q4⟩ := hpre
  refine ⟨h1, ?_⟩
  unfold CallFacts
  simp only [startCalls_append, stopCalls_append, gpsCalls_append, q1, q2, q3, h5]
  refine ⟨?_, ?_, ?_, ?_, ?_, ?_, ?_, ?_⟩
  · intro _ hn
    simp [(h7 hn).2, stopCalls]
  · intro _ hz
    simpa using (h8 hz).2.1
  · simp [hr]
  · simp [hq]
  · simp
  · simp
  · intro hz h1; omega
  · omega

/-- Summary of one event on a provider whose `m_gps` is set: the event completes, `m_gps`
stays set, and the `start()` / `stop()` calls are determined by the demand before and after
and by the kind of the event. -/
theorem step_calls (gps : GpsReturns) (st : State) (e : Event) (hgps : st.m_gps = true) :
    ∃ st1 effs, step gps st e = some (st1, effs) ∧ st1.m_gps = true ∧
      CallFacts gps st e st1 effs := by
  have nil_quiet : startCalls [] = 0 ∧ stopCalls [] = 0 ∧ gpsCalls [] = [] ∧
      sentReplies [] = [] := by
    simp [startCalls, stopCalls, gpsCalls, sentReplies]
  cases e with
  | AddReference service =>
    obtain ⟨st1, effs, heq, -⟩ := startPositioningIfNeeded_spec
        { st with m_watchedServices := st.m_watchedServices ++ [service] } gps hgps
    refine ⟨st1, (if (!st.m_watchedServices.contains service) = true
      then [Effect.addWatchedService service] else []) ++ effs, ?_, ?_⟩
    · simp only [step, AddReference, dbusCall, heq]
      rfl
    · exact callFacts_enqueue gps st _
        { st with m_watchedServices := st.m_watchedServices ++ [service] } st1 _ effs rfl
        hgps (by simp [demand]; omega) (watcher_quiet _ _ (Or.inl ⟨_, rfl⟩)) heq
  | RemoveReference service =>
    obtain ⟨st1, effs, heq, -⟩ := stopPositioningIfNeeded_spec
        { st with m_watchedServices := st.m_watchedServices.erase service } gps hgps
    have hle : (st.m_watchedServices.erase service).length ≤ st.m_watchedServices.length :=
      List.length_erase_le service st.m_watchedServices
    refine ⟨st1, (if (!(st.m_watchedServices.erase service).contains service) = true
      then [Effect.removeWatchedService service] else []) ++ effs, ?_, ?_⟩
    · simp only [step, RemoveReference, dbusCall, heq]
      rfl
    · exact callFacts_removal gps st _
        { st with m_watchedServices := st.m_watchedServices.erase service } st1 _ effs rfl rfl
        hgps (by simp only [demand]; omega) (watcher_quiet _ _ (Or.inr ⟨_, rfl⟩)) heq
  | serviceUnregistered service =>
    obtain ⟨st1, effs, heq, -⟩ := stopPositioningIfNeeded_spec
        { st with m_watchedServices := st.m_watchedServices.filter (fun s => s != service) }
        gps hgps
    have hle : (st.m_watchedServices.filter (fun s => s != service)).length
        ≤ st.m_watchedServices.length := List.length_filter_le _ _
    refine ⟨st1, [Effect.removeWatchedService service] ++ effs, ?_, ?_⟩
    · simp only [step, serviceUnregistered, heq]
    · exact callFacts_removal gps st _
        { st with m_watchedServices := st.m_watchedServices.filter (fun s => s != service) }
        st1 _ effs rfl rfl hgps (by simp only [demand]; omega)
        (by simp [startCalls, stopCalls, gpsCalls, sentReplies]) heq
  | GetPosition now service serial =>
    by_cases hstale : st.m_currentLocation.timestamp < now - MaxLocationAge
    · obtain ⟨st1, effs, heq, -⟩ := startPositioningIfNeeded_spec
          { st with m_pendingCalls :=
              st.m_pendingCalls ++ [(dbusCall service "GetPosition" serial).message] } gps hgps
      refine ⟨st1, effs, ?_, ?_⟩
      · simp only [step, GetPosition, hstale, if_true, heq]
      · exact callFacts_enqueue gps st _
          { st with m_pendingCalls :=
              st.m_pendingCalls ++ [(dbusCall service "GetPosition" serial).message] }
          st1 [] effs rfl hgps (by simp [demand]; omega) nil_quiet heq
    · refine ⟨st, [], ?_, hgps, callFacts_quiet gps st _ st [] rfl rfl ?_ ?_⟩
      · simp only [step, GetPosition, hstale, if_false]
      · simp [startCalls]
      · simp [stopCalls]
  | GetVelocity now service serial =>
    by_cases hstale : st.m_currentLocation.timestamp < now - MaxLocationAge
    · obtain ⟨st1, effs, heq, -⟩ := startPositioningIfNeeded_spec
          { st with m_pendingCalls :=
              st.m_pendingCalls ++ [(dbusCall service "GetVelocity" serial).message] } gps hgps
      refine ⟨st1, effs, ?_, ?_⟩
      · simp only [step, GetVelocity, hstale, if_true, heq]
      · exact callFacts_enqueue gps st _
          { st with m_pendingCalls :=
              st.m_pendingCalls ++ [(dbusCall service "GetVelocity" serial).message] }
          st1 [] effs rfl hgps (by simp [demand]; omega) nil_quiet heq
    · refine ⟨st, [], ?_, hgps, callFacts_quiet gps st _ st [] rfl rfl ?_ ?_⟩
      · simp only [step, GetVelocity, hstale, if_false]
      · simp [startCalls]
      · simp [stopCalls]
  | setLocation location =>
    obtain ⟨h1, h2, h3, h4, h5, h6, h7⟩ := setLocation_calls st location
    refine ⟨(setLocation st location).1, (setLocation st location).2, rfl, ?_, ?_⟩
    · rw [h1]; exact hgps
    · have hd : demand (setLocation st location).1 ≤ demand st := by
        simp [demand, h2, h3]
      unfold CallFacts
      simp only [h5, h6, h7]
      refine ⟨?_, ?_, ?_, ?_, ?_, ?_, ?_, ?_⟩
      · simp
      · simp [Event.isRemoval]
      · simp
      · simp [Event.isRequest]
      · simp
      · simp
      · intro hz h1; omega
      · omega
  | timerEvent timerId =>
    by_cases ht : timerId = st.m_idleTimer
    · refine ⟨{ st with m_idleTimer := -1 }, [Effect.killTimer st.m_idleTimer, Effect.quit],
        ?_, hgps, callFacts_quiet gps st _ _ _ rfl rfl ?_ ?_⟩
      · simp [step, timerEvent, ht]
      · simp [startCalls]
      · simp [stopCalls]
    · refine ⟨st, [], ?_, hgps, callFacts_quiet gps st _ _ _ rfl rfl ?_ ?_⟩
      · simp [step, timerEvent, ht]
      · simp [startCalls]
      · simp [stopCalls]

/-! ## Demand transitions and the hardware -/

/-- C1 (amended): on a provider whose `m_gps` is set, every `AddReference`,
`RemoveReference`, `serviceUnregistered`, `GetPosition` and `GetVelocity` event completes
and: if it takes demand from a positive value to 0 then `stop()` is called exactly once
during it; if demand after it is positive then `stop()` is not called; a `RemoveReference`
or `serviceUnregistered` calls `stop()` exactly once whenever demand after it is 0, also
when demand was 0 before; `AddReference`, `GetPosition` and `GetVelocity` never call
`stop()`. -/
theorem C1_stop_when_demand_zero_after (gps : GpsReturns) (st : State) (e : Event)
    (hgps : st.m_gps = true) (he : e.isRemoval = true ∨ e.isRequest = true) :
    ∃ st1 effs, step gps st e = some (st1, effs) ∧
      (0 < demand st → demand st1 = 0 → stopCalls effs = 1) ∧
      (0 < demand st1 → stopCalls effs = 0) ∧
      (e.isRemoval = true → demand st1 = 0 → stopCalls effs = 1) ∧
      (e.isRequest = true → stopCalls effs = 0) := by
  obtain ⟨st1, effs, heq, -, f1, f2, f3, f4, -, -, -⟩ := step_calls gps st e hgps
  have hx : e.isRequest = true → e.isRemoval = false := by
    cases e <;> simp [Event.isRequest, Event.isRemoval]
  refine ⟨st1, effs, heq, ?_, ?_, f2, fun hq => f3 (hx hq)⟩
  · intro hp hz
    rcases he with hr | hq
    · exact f2 hr hz
    · have := f4 hq
      omega
  · intro hp
    cases hr : e.isRemoval with
    | true => exact f1 hr (by omega)
    | false => exact f3 hr

theorem C1_stop_when_demand_zero_after_witness :
    (∃ e0, step gpsOk initialState (Event.AddReference "A") = some (watchingA, e0)) ∧
    watchingA.m_gps = true ∧ 0 < demand watchingA ∧
    ∃ st1 effs, step gpsOk watchingA (Event.RemoveReference "A") = some (st1, effs) ∧
      demand st1 = 0 ∧ stopCalls effs = 1 := by
  obtain ⟨st1, effs, heq, h1, -, -, -⟩ :=
    C1_stop_when_demand_zero_after gpsOk watchingA (Event.RemoveReference "A") rfl
      (Or.inl rfl)
  have hev : (step gpsOk watchingA (Event.RemoveReference "A")).map (fun r => demand r.1)
      = some 0 := by decide
  rw [heq] at hev
  have hd : demand st1 = 0 := by simpa using hev
  exact ⟨⟨_, rfl⟩, rfl, by decide, st1, effs, heq, hd, h1 (by decide) hd⟩

/-- C2: on a provider whose `m_gps` is set every event completes and: if it raises demand
from 0 to 1 and `set_position_mode` reports success, the calls made through `m_gps` are
exactly `set_position_mode` followed by one `start()`; if it does not raise demand from 0
to 1, `start()` is not called; an event that is not an `AddReference`, `GetPosition` or
`GetVelocity` call (a `RemoveReference`, `serviceUnregistered`, `setLocation` or timer
event) never calls `start()`. -/
theorem C2_start_only_on_zero_to_one (gps : GpsReturns) (st : State) (e : Event)
    (hgps : st.m_gps = true) :
    ∃ st1 effs, step gps st e = some (st1, effs) ∧
      (demand st = 0 → demand st1 = 1 → gps.set_position_mode = 0 →
        startCalls effs = 1 ∧
        gpsCalls effs = [Effect.set_position_mode MinimumInterval PreferredAccuracy
                           PreferredInitialFixTime, Effect.start]) ∧
      (¬ (demand st = 0 ∧ demand st1 = 1) → startCalls effs = 0) ∧
      (e.isRequest = false → startCalls effs = 0) := by
  obtain ⟨st1, effs, heq, -, -, -, -, -, f5, f6, f7, -⟩ := step_calls gps st e hgps
  exact ⟨st1, effs, heq, f7, f6, f5⟩

theorem C2_start_only_on_zero_to_one_witness :
    initialState.m_gps = true ∧
    ∃ st1 effs, step gpsOk initialState (Event.AddReference "A") = some (st1, effs) ∧
      (demand initialState = 0 → demand st1 = 1 → gpsOk.set_position_mode = 0 →
        startCalls effs = 1 ∧
        gpsCalls effs = [Effect.set_position_mode MinimumInterval PreferredAccuracy
                           PreferredInitialFixTime, Effect.start]) ∧
      (¬ (demand initialState = 0 ∧ demand st1 = 1) → startCalls effs = 0) ∧
      ((Event.AddReference "A").isRequest = false → startCalls effs = 0) :=
  ⟨rfl, C2_start_only_on_zero_to_one gpsOk initialState (Event.AddReference "A") rfl⟩

/-! ## Immediate answers -/

/-- C5: when the age of the current sample (clock reading minus sample timestamp) is less
than 1000 ms, `GetPosition` and `GetVelocity` answer immediately: the state (pending calls
included) is unchanged, nothing is done, no delayed reply is requested, and each presence
bit of the returned flags is set exactly when that field of the current sample is not NaN.
For a sample with only latitude and longitude set `GetPosition` returns exactly the
latitude and longitude bits and `GetVelocity` returns no bit. -/
theorem C5_fresh_sample_answered_immediately (st : State) (now : Int) (ctx : QDBusContext)
    (gps : GpsReturns) (hfresh : now - st.m_currentLocation.timestamp < 1000) :
    ∃ rp rv,
      GetPosition st now ctx gps = some (st, [], rp) ∧
      GetVelocity st now ctx gps = some (st, [], rv) ∧
      rp.delayedReply = false ∧ rv.delayedReply = false ∧
      rp.out.isSome = true ∧ rv.out.isSome = true ∧
      (rp.positionFields &&& LatitudePresent ≠ 0 ↔
        qIsNaN st.m_currentLocation.latitude = false) ∧
      (rp.positionFields &&& LongitudePresent ≠ 0 ↔
        qIsNaN st.m_currentLocation.longitude = false) ∧
      (rp.positionFields &&& AltitudePresent ≠ 0 ↔
        qIsNaN st.m_currentLocation.altitude = false) ∧
      (rv.velocityFields &&& SpeedPresent ≠ 0 ↔
        qIsNaN st.m_currentLocation.speed = false) ∧
      (rv.velocityFields &&& DirectionPresent ≠ 0 ↔
        qIsNaN st.m_currentLocation.direction = false) ∧
      (rv.velocityFields &&& ClimbPresent ≠ 0 ↔
        qIsNaN st.m_currentLocation.climb = false) ∧
      (qIsNaN st.m_currentLocation.latitude = false →
        qIsNaN st.m_currentLocation.longitude = false →
        qIsNaN st.m_currentLocation.altitude = true →
        qIsNaN st.m_currentLocation.speed = true →
        qIsNaN st.m_currentLocation.direction = true →
        qIsNaN st.m_currentLocation.climb = true →
        rp.positionFields = LatitudePresent ||| LongitudePresent ∧
        rv.velocityFields = NoVelocityFields) := by
  have hns : ¬ st.m_currentLocation.timestamp < now - MaxLocationAge := by
    unfold MaxLocationAge; omega
  refine ⟨_, _, by rw [GetPosition, if_neg hns], by rw [GetVelocity, if_neg hns], ?_⟩
  refine ⟨rfl, rfl, rfl, rfl, ?_, ?_, ?_, ?_, ?_, ?_, ?_⟩
  all_goals
    cases qIsNaN st.m_currentLocation.latitude <;>
    cases qIsNaN st.m_currentLocation.longitude <;>
    cases qIsNaN st.m_currentLocation.altitude <;>
    cases qIsNaN st.m_currentLocation.speed <;>
    cases qIsNaN st.m_currentLocation.direction <;>
    cases qIsNaN st.m_currentLocation.climb <;> dsimp only <;> decide

theorem C5_fresh_sample_answered_immediately_witness :
    5500 - (setLocation initialState (latLonFix 5000)).1.m_currentLocation.timestamp < 1000 ∧
    ∃ rp rv,
      GetPosition (setLocation initialState (latLonFix 5000)).1 5500
        (dbusCall "A" "GetPosition" 1) gpsOk
        = some ((setLocation initialState (latLonFix 5000)).1, [], rp) ∧
      GetVelocity (setLocation initialState (latLonFix 5000)).1 5500
        (dbusCall "A" "GetPosition" 1) gpsOk
        = some ((setLocation initialState (latLonFix 5000)).1, [], rv) ∧
      rp.positionFields = LatitudePresent ||| LongitudePresent ∧
      rv.velocityFields = NoVelocityFields := by
  obtain ⟨rp, rv, h1, h2, -, -, -, -, -, -, -, -, -, -, h3⟩ :=
    C5_fresh_sample_answered_immediately (setLocation initialState (latLonFix 5000)).1 5500
      (dbusCall "A" "GetPosition" 1) gpsOk (by decide)
  exact ⟨by decide, rp, rv, h1, h2,
    h3 (by decide) (by decide) (by decide) (by decide) (by decide) (by decide)⟩

/-- From a clock reading of 2^31 + 1000 ms on (25 days after the epoch), the timestamp that
`GetPosition` returns for a fresh sample never equals the sample's timestamp. -/
theorem fresh_timestamp_differs (st : State) (now : Int) (ctx : QDBusContext)
    (gps : GpsReturns) (hclock : 2 ^ 31 + 1000 ≤ now)
    (hfresh : ¬ st.m_currentLocation.timestamp < now - MaxLocationAge) :
    ∃ r o, GetPosition st now ctx gps = some (st, [], r) ∧ r.out = some o ∧
      o.timestamp = toInt32 st.m_currentLocation.timestamp ∧
      o.timestamp ≠ st.m_currentLocation.timestamp := by
  refine ⟨_, _, by rw [GetPosition, if_neg hfresh], rfl, rfl, ?_⟩
  unfold MaxLocationAge at hfresh
  simp only [toInt32]
  omega

/-! ## Identity disappearance versus explicit removal -/

theorem filter_ne_of_not_mem (a : String) (l : List String) (h : a ∉ l) :
    l.filter (fun s => s != a) = l := by
  induction l with
  | nil => rfl
  | cons x xs ih =>
    have hx : x ≠ a := fun hxa => h (by simp [hxa])
    have hxs : a ∉ xs := fun hm => h (List.mem_cons_of_mem _ hm)
    simp [List.filter_cons, hx, ih hxs]

/-- Deleting the first occurrence deletes every occurrence when there is at most one. -/
theorem erase_eq_filter_of_count_le_one (a : String) (l : List String)
    (h : l.count a ≤ 1) : l.erase a = l.filter (fun s => s != a) := by
  induction l with
  | nil => rfl
  | cons x xs ih =>
    by_cases hx : x = a
    · subst hx
      have hc : xs.count x = 0 := by
        simp [List.count_cons] at h
        exact h
      have hn : x ∉ xs := List.count_eq_zero.mp hc
      simp [List.filter_cons, filter_ne_of_not_mem x xs hn]
    · have hc : xs.count a ≤ 1 := by
        simp [List.count_cons, hx] at h
        exact h
      rw [List.erase_cons_tail (by simpa using hx), ih hc]
      simp [List.filter_cons, hx]

/-- C8 (amended): for every state in which the identity occurs at most once in the
watched-services list, `serviceUnregistered(identity)` has the same outcome as a
`RemoveReference` call made by that identity from the same state: the same state (hence
the same watched-services list and the same demand) and the same actions; both complete
when `m_gps` is set. -/
theorem C8_unregistered_as_remove_when_single (st : State) (service : String)
    (gps : GpsReturns) (hcount : st.m_watchedServices.count service ≤ 1) :
    serviceUnregistered st service gps
      = RemoveReference st (dbusCall service "RemoveReference" 0) gps ∧
    (st.m_gps = true →
      ∃ st1 effs, serviceUnregistered st service gps = some (st1, effs) ∧
        RemoveReference st (dbusCall service "RemoveReference" 0) gps = some (st1, effs) ∧
        st1.m_watchedServices = st.m_watchedServices.erase service ∧
        demand st1 = (st.m_watchedServices.erase service).length + st.m_pendingCalls.length)
    := by
  have he := erase_eq_filter_of_count_le_one service st.m_watchedServices hcount
  have hnc : (st.m_watchedServices.filter (fun s => s != service)).contains service = false := by
    simp [List.mem_filter]
  have heq : serviceUnregistered st service gps
      = RemoveReference st (dbusCall service "RemoveReference" 0) gps := by
    simp only [serviceUnregistered, RemoveReference, dbusCall, he, hnc]
    rfl
  refine ⟨heq, fun hgps => ?_⟩
  obtain ⟨st1, effs, h, -, h2, h3, -⟩ := stopPositioningIfNeeded_spec
    { st with m_watchedServices := st.m_watchedServices.filter (fun s => s != service) } gps hgps
  refine ⟨st1, [Effect.removeWatchedService service] ++ effs, ?_, ?_, ?_, ?_⟩
  · simp only [serviceUnregistered, h]
  · rw [← heq]; simp only [serviceUnregistered, h]
  · rw [h2, he]
  · simp [demand, h2, h3, he]

theorem C8_unregistered_as_remove_when_single_witness :
    ({ initialState with m_watchedServices := ["A", "B"] } : State).m_watchedServices.count "A"
      ≤ 1 ∧
    serviceUnregistered { initialState with m_watchedServices := ["A", "B"] } "A" gpsOk
      = RemoveReference { initialState with m_watchedServices := ["A", "B"] }
          (dbusCall "A" "RemoveReference" 0) gpsOk :=
  ⟨by decide,
   (C8_unregistered_as_remove_when_single
      { initialState with m_watchedServices := ["A", "B"] } "A" gpsOk (by decide)).1⟩

/-! ## Pending calls -/

theorem startPositioningIfNeeded_pending (st : State) (gps : GpsReturns) (st1 : State)
    (effs : List Effect) (h : startPositioningIfNeeded st gps = some (st1, effs)) :
    st1.m_pendingCalls = st.m_pendingCalls := by
  cases hg : st.m_gps with
  | true =>
    obtain ⟨st2, effs2, heq, -, -, h3, -⟩ := startPositioningIfNeeded_spec st gps hg
    rw [h] at heq
    simp only [Option.some.injEq, Prod.mk.injEq] at heq
    rw [heq.1]; exact h3
  | false =>
    by_cases hd : demand st = 1
    · unfold demand at hd
      by_cases ht : st.m_idleTimer = -1 <;> simp [startPositioningIfNeeded, hd, hg, ht] at h
    · rw [startPositioningIfNeeded_idle st gps hd] at h
      simp only [Option.some.injEq, Prod.mk.injEq] at h
      rw [← h.1]

theorem stopPositioningIfNeeded_pending (st : State) (gps : GpsReturns) (st1 : State)
    (effs : List Effect) (h : stopPositioningIfNeeded st gps = some (st1, effs)) :
    st1.m_pendingCalls = st.m_pendingCalls := by
  cases hg : st.m_gps with
  | true =>
    obtain ⟨st2, effs2, heq, -, -, h3, -⟩ := stopPositioningIfNeeded_spec st gps hg
    rw [h] at heq
    simp only [Option.some.injEq, Prod.mk.injEq] at heq
    rw [heq.1]; exact h3
  | false =>
    by_cases hd : demand st = 0
    · unfold demand at hd
      have hw : st.m_watchedServices = [] := by
        cases hw : st.m_watchedServices <;> simp_all
      have hp : st.m_pendingCalls = [] := by
        cases hp : st.m_pendingCalls <;> simp_all
      simp [stopPositioningIfNeeded, hw, hp, hg] at h
    · rw [stopPositioningIfNeeded_busy st gps hd] at h
      simp only [Option.some.injEq, Prod.mk.injEq] at h
      rw [← h.1]

theorem result_of_match (o : Option (State × List Effect)) (pre : List Effect) (st1 : State)
    (effs : List Effect)
    (h : (match o with
          | none => none
          | some (st2, e2) => some (st2, pre ++ e2)) = some (st1, effs)) :
    ∃ e2, o = some (st1, e2) ∧ effs = pre ++ e2 := by
  cases o with
  | none => simp at h
  | some r =>
    obtain ⟨st2, e2⟩ := r
    simp only [Option.some.injEq, Prod.mk.injEq] at h
    exact ⟨e2, by rw [h.1], h.2.symm⟩

/-- The pending calls after one event: unchanged, extended by one query, or emptied. -/
theorem step_pending (gps : GpsReturns) (st : State) (e : Event) (st1 : State)
    (effs : List Effect) (h : step gps st e = some (st1, effs)) :
    st1.m_pendingCalls = st.m_pendingCalls ∨ st1.m_pendingCalls = [] ∨
    ∃ m, (m.member = "GetPosition" ∨ m.member = "GetVelocity") ∧
      st1.m_pendingCalls = st.m_pendingCalls ++ [m] := by
  cases e with
  | AddReference service =>
    simp only [step, AddReference, dbusCall] at h
    obtain ⟨e2, h2, -⟩ := result_of_match _ _ _ _ h
    have := startPositioningIfNeeded_pending _ _ _ _ h2
    exact Or.inl this
  | RemoveReference service =>
    simp only [step, RemoveReference, dbusCall] at h
    obtain ⟨e2, h2, -⟩ := result_of_match _ _ _ _ h
    have := stopPositioningIfNeeded_pending _ _ _ _ h2
    exact Or.inl this
  | serviceUnregistered service =>
    simp only [step, serviceUnregistered] at h
    obtain ⟨e2, h2, -⟩ := result_of_match _ _ _ _ h
    have := stopPositioningIfNeeded_pending _ _ _ _ h2
    exact Or.inl this
  | GetPosition now service serial =>
    simp only [step, GetPosition, dbusCall] at h
    by_cases hstale : st.m_currentLocation.timestamp < now - MaxLocationAge
    · simp only [hstale, if_true] at h
      cases hres : startPositioningIfNeeded
          { st with m_pendingCalls := st.m_pendingCalls ++ [⟨service, "GetPosition", serial⟩] }
          gps with
      | none => simp [hres] at h
      | some r =>
        obtain ⟨st2, e2⟩ := r
        simp only [hres, Option.some.injEq, Prod.mk.injEq] at h
        have := startPositioningIfNeeded_pending _ _ _ _ hres
        rw [h.1] at this
        exact Or.inr (Or.inr ⟨_, Or.inl rfl, this⟩)
    · simp only [hstale, if_false, Option.some.injEq, Prod.mk.injEq] at h
      exact Or.inl (by rw [← h.1])
  | GetVelocity now service serial =>
    simp only [step, GetVelocity, dbusCall] at h
    by_cases hstale : st.m_currentLocation.timestamp < now - MaxLocationAge
    · simp only [hstale, if_true] at h
      cases hres : startPositioningIfNeeded
          { st with m_pendingCalls := st.m_pendingCalls ++ [⟨service, "GetVelocity", serial⟩] }
          gps with
      | none => simp [hres] at h
      | some r =>
        obtain ⟨st2, e2⟩ := r
        simp only [hres, Option.some.injEq, Prod.mk.injEq] at h
        have := startPositioningIfNeeded_pending _ _ _ _ hres
        rw [h.1] at this
        exact Or.inr (Or.inr ⟨_, Or.inr rfl, this⟩)
    · simp only [hstale, if_false, Option.some.injEq, Prod.mk.injEq] at h
      exact Or.inl (by rw [← h.1])
  | setLocation location =>
    simp only [step, Option.some.injEq] at h
    have := (setLocation_calls st location).2.2.1
    rw [h] at this
    exact Or.inr (Or.inl this)
  | timerEvent timerId =>
    simp only [step, Option.some.injEq] at h
    unfold timerEvent at h
    split_ifs at h <;> simp only [Prod.mk.injEq] at h <;> exact Or.inl (by rw [← h.1])

theorem reachable_knownMembers (st : State) (h : Reachable st) :
    KnownMembers st.m_pendingCalls := by
  induction h with
  | init hal st effs hc =>
    have : st.m_pendingCalls = [] := by
      unfold HybrisProvider at hc
      by_cases h1 : hal.hw_get_module = 0 <;> by_cases h2 : hal.openDevice = 0 <;>
        by_cases h3 : hal.get_gps_interface = true <;> by_cases h4 : hal.init = 0 <;>
        simp [h1, h2, h3, h4] at hc <;> rw [← hc.1]
    rw [this]
    intro m hm
    simp at hm
  | step gps e st st1 effs _ hs ih =>
    rcases step_pending gps st e st1 effs hs with h1 | h1 | ⟨m, hm, h1⟩
    · rw [h1]; exact ih
    · rw [h1]; intro m hm; simp at hm
    · rw [h1]
      intro x hx
      rcases List.mem_append.mp hx with hx | hx
      · exact ih x hx
      · simp only [List.mem_singleton] at hx
        rw [hx]; exact hm

/-- The replies of a fix when every pending call is a known query: one per call, in order. -/
theorem sentReplies_setLocation (st : State) (location : Location)
    (hk : KnownMembers st.m_pendingCalls) :
    sentReplies (setLocation st location).2 =
      st.m_pendingCalls.map (fun m =>
        (m, if m.member = "GetPosition" then positionArguments location
            else velocityArguments location)) := by
  obtain ⟨sp, sv, he, ⟨f, t, a, b, c, d, rfl⟩, ⟨f1, t1, a1, b1, c1, rfl⟩⟩ :=
    setLocation_effects st location
  rw [he, sentReplies_append]
  have h0 : sentReplies [Effect.PositionChanged f t a b c d,
      Effect.VelocityChanged f1 t1 a1 b1 c1] = [] := by
    simp [sentReplies]
  rw [h0, List.nil_append]
  generalize st.m_pendingCalls = q at hk
  induction q with
  | nil => rfl
  | cons m q ih =>
    have hq : KnownMembers q := fun x hx => hk x (List.mem_cons_of_mem _ hx)
    have ih1 := ih hq
    have hm := hk m (List.mem_cons_self _ _)
    simp only [sentReplies] at ih1 ⊢
    rw [List.map_cons, List.filterMap_cons, List.map_cons]
    rcases hm with hm | hm
    · simp only [replyPendingCall, hm, beq_self_eq_true, if_true]
      rw [ih1]
    · have hne : ¬ m.member = "GetPosition" := by rw [hm]; decide
      have hne1 : (m.member == "GetPosition") = false := by rw [hm]; decide
      simp only [replyPendingCall, hne1, hm, beq_self_eq_true, if_true, if_false]
      rw [ih1]
      simp

/-- In every reachable state: on a provider whose `m_gps` is set, a `GetPosition` or
`GetVelocity` call that finds the current sample stale requests a delayed reply, sends
nothing and appends its message to the end of the pending-call list; and for every sample
`s`, `setLocation(s)` sends exactly one reply for each pending call, in the order of the
list, each built from `s`, and leaves the pending-call list empty. -/
theorem pending_calls_answered_in_order (st : State) (hr : Reachable st) :
    (∀ (now : Int) (ctx : QDBusContext) (gps : GpsReturns), st.m_gps = true →
      st.m_currentLocation.timestamp < now - MaxLocationAge →
      (∃ st1 effs r, GetPosition st now ctx gps = some (st1, effs, r) ∧
        r.delayedReply = true ∧ r.out = none ∧ sentReplies effs = [] ∧
        st1.m_pendingCalls = st.m_pendingCalls ++ [ctx.message]) ∧
      (∃ st1 effs r, GetVelocity st now ctx gps = some (st1, effs, r) ∧
        r.delayedReply = true ∧ r.out = none ∧ sentReplies effs = [] ∧
        st1.m_pendingCalls = st.m_pendingCalls ++ [ctx.message])) ∧
    (∀ s : Location,
      sentReplies (setLocation st s).2 =
        st.m_pendingCalls.map (fun m =>
          (m, if m.member = "GetPosition" then positionArguments s
              else velocityArguments s)) ∧
      (sentReplies (setLocation st s).2).length = st.m_pendingCalls.length ∧
      (setLocation st s).1.m_pendingCalls = [] ∧
      (setLocation st s).1.m_currentLocation = s ∧
      (∃ fp fv,
        positionArguments s =
          [QVariant.int32 fp, QVariant.int32 (toInt32 s.timestamp),
           QVariant.double s.latitude, QVariant.double s.longitude,
           QVariant.double s.altitude, QVariant.accuracy s.accuracy] ∧
        velocityArguments s =
          [QVariant.int32 fv, QVariant.double s.speed, QVariant.double s.direction,
           QVariant.double s.climb])) := by
  refine ⟨fun now ctx gps hgps hstale => ?_, fun s => ?_⟩
  · obtain ⟨st1, effs, heq, -, -, h3, -, -, h6, -⟩ := startPositioningIfNeeded_spec
      { st with m_pendingCalls := st.m_pendingCalls ++ [ctx.message] } gps hgps
    exact ⟨⟨st1, effs, { delayedReply := true, positionFields := NoPositionFields, out := none },
        by simp only [GetPosition, hstale, if_true, heq], rfl, rfl, h6, h3⟩,
      ⟨st1, effs, { delayedReply := true, velocityFields := NoVelocityFields, out := none },
        by simp only [GetVelocity, hstale, if_true, heq], rfl, rfl, h6, h3⟩⟩
  · have hk := reachable_knownMembers st hr
    have h1 := sentReplies_setLocation st s hk
    refine ⟨h1, by rw [h1, List.length_map], (setLocation_calls st s).2.2.1, ?_,
      ⟨_, _, rfl, rfl⟩⟩
    unfold setLocation emitLocationChanged
    cases hp : st.m_pendingCalls <;> rfl

/-! ## Balanced reference sequences -/

theorem startStopAlternate_append (a b : List Effect) (running : Bool) :
    startStopAlternate running (a ++ b) =
      (startStopAlternate running a).bind (fun r => startStopAlternate r b) := by
  induction a generalizing running with
  | nil => rfl
  | cons x xs ih =>
    cases x <;> cases running <;> simp [startStopAlternate, ih]

/-- Actions without `start()` and `stop()` keep the running flag. -/
theorem startStopAlternate_quiet (effs : List Effect) (running : Bool)
    (h1 : startCalls effs = 0) (h2 : stopCalls effs = 0) :
    startStopAlternate running effs = some running := by
  induction effs with
  | nil => rfl
  | cons x xs ih =>
    unfold startCalls at h1 ih
    unfold stopCalls at h2 ih
    cases x <;> simp [List.count_cons] at h1 h2 <;> simp [startStopAlternate, ih h1 h2]

/-- One `start()` and no `stop()` turn a stopped receiver on. -/
theorem startStopAlternate_start (effs : List Effect)
    (h1 : startCalls effs = 1) (h2 : stopCalls effs = 0) :
    startStopAlternate false effs = some true := by
  induction effs with
  | nil => simp [startCalls] at h1
  | cons x xs ih =>
    unfold startCalls at h1 ih
    unfold stopCalls at h2 ih
    cases x <;> simp [List.count_cons] at h1 h2 <;>
      first
        | simp [startStopAlternate, ih h1 h2]
        | (simp only [startStopAlternate, Bool.false_eq_true, if_false]
           exact startStopAlternate_quiet xs true h1 h2)

/-- One `stop()` and no `start()` turn a started receiver off. -/
theorem startStopAlternate_stop (effs : List Effect)
    (h1 : startCalls effs = 0) (h2 : stopCalls effs = 1) :
    startStopAlternate true effs = some false := by
  induction effs with
  | nil => simp [stopCalls] at h2
  | cons x xs ih =>
    unfold startCalls at h1 ih
    unfold stopCalls at h2 ih
    cases x <;> simp [List.count_cons] at h1 h2 <;>
      first
        | simp [startStopAlternate, ih h1 h2]
        | (simp only [startStopAlternate, if_true]
           exact startStopAlternate_quiet xs false h1 h2)

/-- In an alternating list the `start()` and `stop()` calls balance up to the running flags
at both ends. -/
theorem startStopAlternate_counts (effs : List Effect) (r0 r1 : Bool)
    (h : startStopAlternate r0 effs = some r1) :
    startCalls effs + (if r0 = true then 1 else 0) =
      stopCalls effs + (if r1 = true then 1 else 0) := by
  induction effs generalizing r0 with
  | nil =>
    simp only [startStopAlternate, Option.some.injEq] at h
    simp [startCalls, stopCalls, h]
  | cons x xs ih =>
    unfold startCalls stopCalls at ih ⊢
    cases x <;> cases r0 <;> simp [startStopAlternate] at h <;>
      have := ih _ h <;> simp [List.count_cons] at this ⊢ <;> omega

theorem startsAnswered_append (a b : List Effect) (running : Bool) :
    startsAnswered running (a ++ b) =
      (startsAnswered running a).bind (fun r => startsAnswered r b) := by
  induction a generalizing running with
  | nil => rfl
  | cons x xs ih =>
    cases x <;> cases running <;> simp [startsAnswered, ih]

theorem startsAnswered_quiet (effs : List Effect) (running : Bool)
    (h1 : startCalls effs = 0) (h2 : stopCalls effs = 0) :
    startsAnswered running effs = some running := by
  induction effs with
  | nil => rfl
  | cons x xs ih =>
    unfold startCalls at h1 ih
    unfold stopCalls at h2 ih
    cases x <;> simp [List.count_cons] at h1 h2 <;> simp [startsAnswered, ih h1 h2]

theorem startsAnswered_start (effs : List Effect)
    (h1 : startCalls effs ≤ 1) (h2 : stopCalls effs = 0) :
    ∃ r, startsAnswered false effs = some r := by
  induction effs with
  | nil => exact ⟨false, rfl⟩
  | cons x xs ih =>
    unfold startCalls at h1 ih
    unfold stopCalls at h2 ih
    cases x with
    | start =>
      simp [List.count_cons] at h1 h2
      exact ⟨true, by
        simp only [startsAnswered, Bool.false_eq_true, if_false]
        exact startsAnswered_quiet xs true h1 h2⟩
    | stop => simp [List.count_cons] at h2
    | _ =>
      simp [List.count_cons] at h1 h2
      obtain ⟨r, hr⟩ := ih h1 h2
      exact ⟨r, by simp [startsAnswered, hr]⟩

theorem startsAnswered_stop (effs : List Effect) (running : Bool)
    (h1 : startCalls effs = 0) (h2 : stopCalls effs = 1) :
    startsAnswered running effs = some false := by
  induction effs generalizing running with
  | nil => simp [stopCalls] at h2
  | cons x xs ih =>
    unfold startCalls at h1 ih
    unfold stopCalls at h2 ih
    cases x <;> simp [List.count_cons] at h1 h2 <;>
      first
        | simp [startsAnswered, ih _ h1 h2]
        | (simp only [startsAnswered]
           exact startsAnswered_quiet xs false h1 h2)

/-- One `AddReference` or `RemoveReference` on a provider whose `m_gps` is set. -/
theorem step_reference (gps : GpsReturns) (st : State) (e : Event)
    (hgps : st.m_gps = true) (he : e.isReference = true) :
    ∃ st1 effs, step gps st e = some (st1, effs) ∧ st1.m_gps = true ∧
      st1.m_pendingCalls = st.m_pendingCalls ∧
      st1.m_watchedServices = watchedAfter st.m_watchedServices e ∧
      CallFacts gps st e st1 effs := by
  obtain ⟨st1, effs, heq, hg1, hf⟩ := step_calls gps st e hgps
  refine ⟨st1, effs, heq, hg1, ?_, ?_, hf⟩
  · rcases step_pending gps st e st1 effs heq with h | h | ⟨m, -, h⟩
    · exact h
    · cases e <;> simp [Event.isReference] at he
      · simp only [step, AddReference, dbusCall] at heq
        obtain ⟨e2, h2, -⟩ := result_of_match _ _ _ _ heq
        have := startPositioningIfNeeded_pending _ _ _ _ h2
        exact this
      · simp only [step, RemoveReference, dbusCall] at heq
        obtain ⟨e2, h2, -⟩ := result_of_match _ _ _ _ heq
        have := stopPositioningIfNeeded_pending _ _ _ _ h2
        exact this
    · cases e <;> simp [Event.isReference] at he
      · simp only [step, AddReference, dbusCall] at heq
        obtain ⟨e2, h2, -⟩ := result_of_match _ _ _ _ heq
        have := startPositioningIfNeeded_pending _ _ _ _ h2
        exact this
      · simp only [step, RemoveReference, dbusCall] at heq
        obtain ⟨e2, h2, -⟩ := result_of_match _ _ _ _ heq
        have := stopPositioningIfNeeded_pending _ _ _ _ h2
        exact this
  · cases e <;> simp [Event.isReference] at he
    · rename_i service
      simp only [step, AddReference, dbusCall] at heq
      obtain ⟨e2, h2, -⟩ := result_of_match _ _ _ _ heq
      obtain ⟨st2, effs2, heq2, -, g2, -⟩ := startPositioningIfNeeded_spec
        { st with m_watchedServices := st.m_watchedServices ++ [service] } gps hgps
      rw [h2] at heq2
      simp only [Option.some.injEq, Prod.mk.injEq] at heq2
      rw [heq2.1]; exact g2
    · rename_i service
      simp only [step, RemoveReference, dbusCall] at heq
      obtain ⟨e2, h2, -⟩ := result_of_match _ _ _ _ heq
      obtain ⟨st2, effs2, heq2, -, g2, -⟩ := stopPositioningIfNeeded_spec
        { st with m_watchedServices := st.m_watchedServices.erase service } gps hgps
      rw [h2] at heq2
      simp only [Option.some.injEq, Prod.mk.injEq] at heq2
      rw [heq2.1]; exact g2

/-- With no pending calls, one reference event whose `RemoveReference` finds its identity
keeps `start()` / `stop()` in step with "the watched-services list is non-empty". -/
theorem step_reference_alternate (gps : GpsReturns) (st : State) (e : Event)
    (hgps : st.m_gps = true) (hp : st.m_pendingCalls = []) (he : e.isReference = true)
    (hmem : ∀ s, e = Event.RemoveReference s → s ∈ st.m_watchedServices) :
    ∃ st1 effs, step gps st e = some (st1, effs) ∧ st1.m_gps = true ∧
      st1.m_pendingCalls = [] ∧
      st1.m_watchedServices = watchedAfter st.m_watchedServices e ∧
      (gps.set_position_mode = 0 →
        startStopAlternate (!st.m_watchedServices.isEmpty) effs
          = some (!st1.m_watchedServices.isEmpty)) ∧
      (∀ r0 : Bool, (r0 = true → st.m_watchedServices ≠ []) →
        ∃ r1, startsAnswered r0 effs = some r1 ∧
          (r1 = true → st1.m_watchedServices ≠ [])) := by
  obtain ⟨st1, effs, heq, hg1, hp1, hw1, f1, f2, f3, f4, f5, f6, f7, f8⟩ :=
    step_reference gps st e hgps he
  have hd : demand st = st.m_watchedServices.length := by simp [demand, hp]
  have hd1 : demand st1 = st1.m_watchedServices.length := by simp [demand, hp1, hp]
  refine ⟨st1, effs, heq, hg1, by rw [hp1, hp], hw1, fun hmode => ?_, fun r0 hr0 => ?_⟩
  rotate_left
  · cases e <;> simp [Event.isReference] at he
    · rename_i service
      have hstop := f3 rfl
      simp only [watchedAfter] at hw1
      have hne : st1.m_watchedServices ≠ [] := by
        rw [hw1]; simp
      cases hw : st.m_watchedServices with
      | nil =>
        have hr : r0 = false := by
          cases r0 with
          | false => rfl
          | true => exact absurd hw (hr0 rfl)
        obtain ⟨r1, h1⟩ := startsAnswered_start effs f8 hstop
        exact ⟨r1, by rw [hr, h1], fun _ => hne⟩
      | cons x xs =>
        have h0 : ¬ (demand st = 0 ∧ demand st1 = 1) := by
          rw [hd, hw]; simp
        exact ⟨r0, startsAnswered_quiet effs r0 (f6 h0) hstop, fun _ => hne⟩
    · rename_i service
      have hstart := f5 rfl
      cases hw : st1.m_watchedServices with
      | nil =>
        have h1 : demand st1 = 0 := by rw [hd1, hw]; rfl
        exact ⟨false, startsAnswered_stop effs r0 hstart (f2 rfl h1), fun h => by simp at h⟩
      | cons x xs =>
        have h1 : demand st1 ≠ 0 := by rw [hd1, hw]; simp
        exact ⟨r0, startsAnswered_quiet effs r0 hstart (f1 rfl h1), fun _ => by simp⟩
  cases e <;> simp [Event.isReference] at he
  · rename_i service
    have hstop := f3 rfl
    simp only [watchedAfter] at hw1
    have hne : (!st1.m_watchedServices.isEmpty) = true := by
      rw [hw1]; cases st.m_watchedServices <;> rfl
    rw [hne]
    cases hw : st.m_watchedServices with
    | nil =>
      have h0 : demand st = 0 := by rw [hd, hw]; rfl
      have h1 : demand st1 = 1 := by rw [hd1, hw1, hw]; rfl
      exact startStopAlternate_start effs (f7 h0 h1 hmode).1 hstop
    | cons x xs =>
      have h0 : ¬ (demand st = 0 ∧ demand st1 = 1) := by
        rw [hd, hw]; simp
      exact startStopAlternate_quiet effs true (f6 h0) hstop
  · rename_i service
    have hstart := f5 rfl
    simp only [watchedAfter] at hw1
    have hin := hmem service rfl
    have hrun : (!st.m_watchedServices.isEmpty) = true := by
      cases hw : st.m_watchedServices with
      | nil => rw [hw] at hin; simp at hin
      | cons x xs => rfl
    rw [hrun]
    cases hw : st1.m_watchedServices with
    | nil =>
      have h1 : demand st1 = 0 := by rw [hd1, hw]; rfl
      exact startStopAlternate_stop effs hstart (f2 rfl h1)
    | cons x xs =>
      have h1 : demand st1 ≠ 0 := by rw [hd1, hw]; simp
      exact startStopAlternate_quiet effs true hstart (f1 rfl h1)

/-- A run of reference events in which no identity ever has more `RemoveReference` than
`AddReference` calls (counting the entries already watched): the run completes, every
identity's entries are the initial ones plus its additions minus its removals, and the
`start()` / `stop()` calls alternate in step with the list being non-empty. -/
theorem run_references (evs : List (GpsReturns × Event)) :
    ∀ st : State, st.m_gps = true → st.m_pendingCalls = [] →
      (∀ x ∈ evs, x.2.isReference = true) →
      (∀ n s, removeCount s (evs.take n)
          ≤ st.m_watchedServices.count s + addCount s (evs.take n)) →
      ∃ st1 effs, run st evs = some (st1, effs) ∧ st1.m_gps = true ∧
        st1.m_pendingCalls = [] ∧
        (∀ s, st1.m_watchedServices.count s + removeCount s evs
            = st.m_watchedServices.count s + addCount s evs) ∧
        ((∀ x ∈ evs, x.1.set_position_mode = 0) →
          startStopAlternate (!st.m_watchedServices.isEmpty) effs
            = some (!st1.m_watchedServices.isEmpty)) ∧
        (∀ r0 : Bool, (r0 = true → st.m_watchedServices ≠ []) →
          ∃ r1, startsAnswered r0 effs = some r1 ∧
            (r1 = true → st1.m_watchedServices ≠ [])) := by
  induction evs with
  | nil =>
    intro st hgps hp _ _
    exact ⟨st, [], rfl, hgps, hp, fun s => by simp [removeCount, addCount], fun _ => rfl,
      fun r0 hr0 => ⟨r0, rfl, hr0⟩⟩
  | cons x rest ih =>
    intro st hgps hp href hbal
    obtain ⟨gps, e⟩ := x
    have he : e.isReference = true := href (gps, e) (List.mem_cons_self _ _)
    have hmem : ∀ s, e = Event.RemoveReference s → s ∈ st.m_watchedServices := by
      intro s hs
      have := hbal 1 s
      simp [removeCount, addCount, List.countP_cons, hs] at this
      exact this
    obtain ⟨st1, effs1, heq1, hg1, hp1, hw1, ha1, hb1⟩ :=
      step_reference_alternate gps st e hgps hp he hmem
    have hcount : ∀ s, st1.m_watchedServices.count s + removeCount s [(gps, e)]
        = st.m_watchedServices.count s + addCount s [(gps, e)] := by
      intro s
      rw [hw1]
      cases e <;> simp [Event.isReference] at he
      · rename_i service
        by_cases hs : service = s <;>
          simp [watchedAfter, removeCount, addCount, List.countP_cons, List.count_singleton, hs]
      · rename_i service
        have hin := hmem service rfl
        by_cases hs : service = s
        · subst hs
          have := List.count_pos_iff.mpr hin
          simp [watchedAfter, removeCount, addCount, List.countP_cons]
          omega
        · have hs1 : s ≠ service := fun h => hs h.symm
          simp [watchedAfter, removeCount, addCount, List.countP_cons, hs, hs1]
    have hsplit : ∀ (s : String) (l : List (GpsReturns × Event)),
        removeCount s ((gps, e) :: l) = removeCount s l + removeCount s [(gps, e)] ∧
        addCount s ((gps, e) :: l) = addCount s l + addCount s [(gps, e)] := by
      intro s l
      simp [removeCount, addCount, List.countP_cons]
    have hbal1 : ∀ n s, removeCount s (rest.take n)
        ≤ st1.m_watchedServices.count s + addCount s (rest.take n) := by
      intro n s
      have h1 := hbal (n + 1) s
      rw [List.take_succ_cons, (hsplit s _).1, (hsplit s _).2] at h1
      have h2 := hcount s
      omega
    obtain ⟨st2, effs2, heq2, hg2, hp2, hc2, ha2, hb2⟩ :=
      ih st1 hg1 hp1 (fun y hy => href y (List.mem_cons_of_mem _ hy)) hbal1
    refine ⟨st2, effs1 ++ effs2, ?_, hg2, hp2, ?_, ?_, ?_⟩
    · simp only [run, heq1, heq2]
    · intro s
      rw [(hsplit s _).1, (hsplit s _).2]
      have h1 := hc2 s
      have h2 := hcount s
      omega
    · intro hmode
      rw [startStopAlternate_append, ha1 (hmode (gps, e) (List.mem_cons_self _ _))]
      exact ha2 (fun y hy => hmode y (List.mem_cons_of_mem _ hy))
    · intro r0 hr0
      obtain ⟨r1, h1, hr1⟩ := hb1 r0 hr0
      obtain ⟨r2, h2, hr2⟩ := hb2 r1 hr1
      exact ⟨r2, by rw [startsAnswered_append, h1]; exact h2, hr2⟩

/-- C7 (amended): starting from a state with `m_gps` set, no watched services and no
pending calls, for every finite sequence of `AddReference` and `RemoveReference` calls in
which each identity makes as many `RemoveReference` as `AddReference` calls and, at every
point of the sequence, no identity has made more `RemoveReference` than `AddReference`
calls: the run completes, the final watched-services list is empty and demand is 0, and
every `start()` call is followed by a later `stop()` call before any further `start()`;
if moreover every `set_position_mode` call succeeds, the `start()` and `stop()` calls
strictly alternate, beginning with a `start()` and ending with a `stop()`, so that there is
exactly one `stop()` per `start()`. -/
theorem C7_matched_references_return_to_idle (st0 : State)
    (evs : List (GpsReturns × Event))
    (hgps : st0.m_gps = true) (hw : st0.m_watchedServices = [])
    (hp : st0.m_pendingCalls = [])
    (href : ∀ x ∈ evs, x.2.isReference = true)
    (hnested : ∀ n s, removeCount s (evs.take n) ≤ addCount s (evs.take n))
    (hbal : ∀ s, removeCount s evs = addCount s evs) :
    ∃ st1 effs, run st0 evs = some (st1, effs) ∧
      st1.m_watchedServices = [] ∧ demand st1 = 0 ∧
      startsAnswered false effs = some false ∧
      ((∀ x ∈ evs, x.1.set_position_mode = 0) →
        startStopAlternate false effs = some false ∧ startCalls effs = stopCalls effs) := by
  obtain ⟨st1, effs, heq, -, hp1, hc, ha, hb⟩ := run_references evs st0 hgps hp href
    (fun n s => by rw [hw]; simpa using hnested n s)
  have hnil : st1.m_watchedServices = [] := by
    apply List.eq_nil_iff_forall_not_mem.mpr
    intro s
    have h1 := hc s
    rw [hw, hbal s] at h1
    simp only [List.count_nil, Nat.zero_add] at h1
    exact List.count_eq_zero.mp (by omega)
  have hans : startsAnswered false effs = some false := by
    obtain ⟨r1, h1, hr1⟩ := hb false (fun h => by simp at h)
    cases r1 with
    | false => exact h1
    | true => exact absurd hnil (hr1 rfl)
  refine ⟨st1, effs, heq, hnil, by simp [demand, hnil, hp1], hans, fun hmode => ?_⟩
  have h2 := ha hmode
  rw [hw, hnil] at h2
  have h3 : startStopAlternate false effs = some false := h2
  have h4 := startStopAlternate_counts effs false false h3
  exact ⟨h3, by simpa using h4⟩

theorem C7_matched_references_return_to_idle_witness :
    ∃ st1 effs,
      run initialState [(gpsOk, Event.AddReference "A"), (gpsOk, Event.RemoveReference "A")]
        = some (st1, effs) ∧
      st1.m_watchedServices = [] ∧ demand st1 = 0 ∧
      startsAnswered false effs = some false ∧
      ((∀ x ∈ [(gpsOk, Event.AddReference "A"), (gpsOk, Event.RemoveReference "A")],
          x.1.set_position_mode = 0) →
        startStopAlternate false effs = some false ∧ startCalls effs = stopCalls effs) :=
  C7_matched_references_return_to_idle initialState
    [(gpsOk, Event.AddReference "A"), (gpsOk, Event.RemoveReference "A")] rfl rfl rfl
    (by decide)
    (fun n s => by
      rcases n with _ | _ | n <;>
        simp [removeCount, addCount, List.countP_cons])
    (fun s => by simp [removeCount, addCount, List.countP_cons])

end Hybris
